import Mathlib

/-!
Verification of the harvard-library-mcp server against its specification.

The Python source is shallowly embedded: dynamically-typed JSON-like values
become the inductive `JValue`, Python truthiness / `str()` / `repr()` become
explicit Lean functions, code that can raise becomes `Except Unit`-valued
functions whose `error` constructor marks a raised exception, and pydantic
models become Lean structures whose construction validates field types the
way pydantic does.  Machine arithmetic does not occur in the modelled code
(Python integers are unbounded, the rate limiter uses exact arithmetic on
integer-valued quantities), so `Int`, `Nat` and `ℚ` are used directly.
-/

set_option linter.unusedVariables false

/-- A Python/JSON value as handled by the client: `None`, booleans, integers,
strings, lists and string-keyed dicts (insertion-ordered association lists).
Mirrors the payload shapes reaching `_parse_harvard_record` in
`api/client.py`. -/
inductive JValue where
  | null
  | bool (b : Bool)
  | num (n : Int)
  | str (s : String)
  | arr (items : List JValue)
  | obj (fields : List (String × JValue))

namespace JValue

/-- Python truthiness (`bool(x)`): `None`, `False`, `0`, `""`, `[]` and
empty dicts are falsy, everything else truthy. -/
def pyTruthy : JValue → Bool
  | .null => false
  | .bool b => b
  | .num n => n != 0
  | .str s => s != ""
  | .arr xs => !xs.isEmpty
  | .obj fs => !fs.isEmpty

mutual

/-- Python `repr()` of a value (used inside containers and by `str()` on
containers).  Models strings of printable characters without embedded
quotes, which covers the catalogue payloads: the string repr is the string
wrapped in single quotes, dicts and lists use their Python literal syntax. -/
def pyRepr : JValue → String
  | .null => "None"
  | .bool b => if b then "True" else "False"
  | .num n => toString n
  | .str s => "\x27" ++ s ++ "\x27"
  | .arr xs => "[" ++ pyReprSeq xs ++ "]"
  | .obj fs => "\x7b" ++ pyReprFields fs ++ "\x7d"

/-- Comma-separated `repr()`s of list items. -/
def pyReprSeq : List JValue → String
  | [] => ""
  | [x] => pyRepr x
  | x :: y :: xs => pyRepr x ++ ", " ++ pyReprSeq (y :: xs)

/-- Comma-separated `repr()`s of dict entries. -/
def pyReprFields : List (String × JValue) → String
  | [] => ""
  | [(k, v)] => "\x27" ++ k ++ "\x27: " ++ pyRepr v
  | (k, v) :: f :: fs => "\x27" ++ k ++ "\x27: " ++ pyRepr v ++ ", " ++ pyReprFields (f :: fs)

end

/-- Python `str()` of a value: identity on strings, `repr()` otherwise. -/
def pyStr : JValue → String
  | .str s => s
  | v => pyRepr v

/-- Dict lookup `d[k]` / `d.get(k)` on the field list of an `obj`. -/
def jGet (fs : List (String × JValue)) (k : String) : Option JValue :=
  List.lookup k fs

/-- Dict lookup with default: `d.get(k, dflt)`. -/
def jGetD (fs : List (String × JValue)) (k : String) (dflt : JValue) : JValue :=
  (jGet fs k).getD dflt

/-- Python `a or b` on values: `a` if truthy, else `b`. -/
def pyOr (a b : JValue) : JValue :=
  if a.pyTruthy then a else b

end JValue

/-- Python dict assignment `d[k] = v`: replaces the value in place if the key
exists, otherwise appends the new entry (insertion order). -/
def dictInsert (fs : List (String × JValue)) (k : String) (v : JValue) :
    List (String × JValue) :=
  if (JValue.jGet fs k).isSome then
    fs.map (fun kv => if kv.1 = k then (k, v) else kv)
  else
    fs ++ [(k, v)]

/-! ### Structural string helpers

Structural replacements for position-based `String` library functions, so
that concrete evaluations reduce inside the kernel.  Each models the
corresponding Python `str` method on ASCII input. -/

/-- Splitting on a single separator character (`str.split(sep)`). -/
def splitOnCharAux (sep : Char) : List Char → List Char → List String
  | [], acc => [String.mk acc.reverse]
  | c :: rest, acc =>
    if c = sep then String.mk acc.reverse :: splitOnCharAux sep rest []
    else splitOnCharAux sep rest (c :: acc)

/-- Splitting a string on a single separator character. -/
def splitOnChar (sep : Char) (s : String) : List String :=
  splitOnCharAux sep s.data []

/-- Python `str.strip()`: drop whitespace from both ends. -/
def pyStrip (s : String) : String :=
  String.mk (((s.data.dropWhile Char.isWhitespace).reverse.dropWhile
    Char.isWhitespace).reverse)

/-- Python `str.upper()` on ASCII input. -/
def pyUpper (s : String) : String :=
  String.mk (s.data.map Char.toUpper)

/-- Python `str.lower()` on ASCII input. -/
def pyLower (s : String) : String :=
  String.mk (s.data.map Char.toLower)

/-- Python `str.startswith(pre)`. -/
def pyStartsWith (s pre : String) : Bool :=
  pre.data.isPrefixOf s.data

/-- Occurrence test of a character-list pattern inside a character list. -/
def strContainsAux (pat : List Char) : List Char → Bool
  | [] => pat.isEmpty
  | c :: rest => pat.isPrefixOf (c :: rest) || strContainsAux pat rest

/-- Substring test (true iff `pat` occurs in `s`). -/
def strContains (s pat : String) : Bool :=
  strContainsAux pat.data s.data

/-- Joining strings with a separator (`sep.join(parts)`). -/
def strIntercalate (sep : String) : List String → String
  | [] => ""
  | [x] => x
  | x :: y :: xs => x ++ sep ++ strIntercalate sep (y :: xs)

/-- Value of a list of ASCII digits read as a decimal number. -/
def digitsToNat : List Char → Nat → Nat
  | [], acc => acc
  | c :: rest, acc => digitsToNat rest (acc * 10 + (c.toNat - 48))

/-! ## RateLimiter (`api/client.py`, lines 24-53)

Token bucket.  Times and token counts are modelled as exact rationals; in the
source they are Python floats, whose arithmetic agrees exactly with ℚ on the
integer-valued quantities the claims are about (zero elapsed time, integral
burst sizes within the float-exact range). -/

/-- State of `RateLimiter`: configuration plus `tokens` and `last_update`. -/
structure RateLimiter where
  requestsPerSecond : ℚ
  burstSize : ℚ
  tokens : ℚ
  lastUpdate : ℚ
deriving DecidableEq, Repr

/-- Embeds `RateLimiter.__init__`: tokens start at `burst_size`, `last_update` at the
construction time (`datetime.now()`), modelled as an explicit parameter. -/
def RateLimiter.init (requestsPerSecond burstSize now : ℚ) : RateLimiter :=
  ⟨requestsPerSecond, burstSize, burstSize, now⟩

/-- Whether an `acquire()` call returned at once or suspended
(`await asyncio.sleep(wait_time)`) for the given number of seconds. -/
inductive AcquireOutcome where
  | immediate
  | waited (seconds : ℚ)
deriving DecidableEq, Repr

/-- Embeds `RateLimiter.acquire` at wall-clock time `now`: top up tokens from the
elapsed time (saturating at the burst size), then either consume a token
immediately or sleep `(1 - tokens) / requests_per_second` and zero the
tokens.  The lock serialises callers, so one sequential step models it. -/
def RateLimiter.acquire (s : RateLimiter) (now : ℚ) : AcquireOutcome × RateLimiter :=
  let timePassed := now - s.lastUpdate
  let tokens := min s.burstSize (s.tokens + timePassed * s.requestsPerSecond)
  if tokens < 1 then
    (.waited ((1 - tokens) / s.requestsPerSecond),
      { s with tokens := 0, lastUpdate := now })
  else
    (.immediate, { s with tokens := tokens - 1, lastUpdate := now })

/-- The limiter state after `k` consecutive `acquire()` calls, all at the same
instant `now` (no elapsed time between them). -/
def RateLimiter.acquireN (s : RateLimiter) (now : ℚ) : Nat → RateLimiter
  | 0 => s
  | k + 1 => ((s.acquireN now k).acquire now).2

/-! ## URL construction (`api/client.py`, `_build_url`, lines 105-119)

`urllib.parse.urlencode` (with its default `quote_via=quote_plus`) and the
relevant case of `urllib.parse.urljoin` are modelled below; both are ASCII
faithful, which covers every parameter the client sends. -/

/-- Characters `quote_plus` never escapes: ASCII letters, digits, `_.-~`. -/
def isUrlSafeChar (c : Char) : Bool :=
  c.isAlphanum || c = '_' || c = '.' || c = '-' || c = '~'

/-- Upper-case hexadecimal digit for `n < 16`. -/
def hexDigitChar (n : Nat) : Char :=
  if n < 10 then Char.ofNat (48 + n) else Char.ofNat (55 + n)

/-- Embeds `urllib.parse.quote_plus` on one character: space becomes `+`, safe
characters pass through, anything else is percent-encoded. -/
def quotePlusChar (c : Char) : String :=
  if c = ' ' then "+"
  else if isUrlSafeChar c then String.singleton c
  else "%" ++ String.singleton (hexDigitChar (c.toNat / 16)) ++
    String.singleton (hexDigitChar (c.toNat % 16))

/-- Embeds `urllib.parse.quote_plus` on a string (ASCII model). -/
def quotePlus (s : String) : String :=
  String.join (s.data.map quotePlusChar)

/-- A query-parameter value as passed by the client: a string or an int. -/
inductive ParamValue where
  | str (s : String)
  | num (n : Int)
deriving DecidableEq, Repr

/-- Python `str()` of a parameter value, applied by `urlencode`. -/
def ParamValue.toPyStr : ParamValue → String
  | .str s => s
  | .num n => toString n

/-- Embeds `urllib.parse.urlencode`: `k=v` pairs joined by `&`, keys and stringified
values passed through `quote_plus`. -/
def urlencode (ps : List (String × ParamValue)) : String :=
  strIntercalate "&" (ps.map (fun kv => quotePlus kv.1 ++ "=" ++ quotePlus kv.2.toPyStr))

/-- Python `s.lstrip("/")`: drop every leading slash. -/
def lstripSlashes (s : String) : String :=
  String.mk (s.data.dropWhile (fun c => c = '/'))

/-- Python `s.endswith(c)` for a single character. -/
def endsWithChar (s : String) (c : Char) : Bool :=
  match s.data.reverse with
  | d :: _ => d = c
  | [] => false

/-- The string has no query or fragment delimiter. -/
def noQueryFragment (s : String) : Bool :=
  s.data.all (fun c => !(c = '?' || c = '#'))

/-- The string has no semicolon (`urlparse` would otherwise split `;`-separated
path parameters off the last path segment). -/
def noSemicolon (s : String) : Bool :=
  s.data.all (fun c => !(c = ';'))

/-- No path segment of the string is `.` or `..`. -/
def noDotSegments (s : String) : Bool :=
  (splitOnChar '/' s).all (fun seg => seg != "." && seg != "..")

/-- The string has no `:` (so it cannot be parsed as carrying a URL scheme). -/
def noScheme (s : String) : Bool :=
  s.data.all (fun c => c != ':')

/-- The characters CPython allows inside a URL scheme (`scheme_chars` in
`urllib/parse.py`): ASCII letters, digits, `+`, `-` and `.`. -/
def isSchemeChar (c : Char) : Bool :=
  c.isAlphanum || c = '+' || c = '-' || c = '.'

/-- The list `urllib.parse.uses_relative`: `urljoin` performs relative joining
only for these base schemes, and otherwise returns its second argument
unchanged. -/
def usesRelative : List String :=
  ["", "ftp", "http", "gopher", "nntp", "imap", "wais", "file", "https",
   "shttp", "mms", "prospero", "rtsp", "rtsps", "rtspu", "sftp", "svn",
   "svn+ssh", "ws", "wss"]

/-- Embeds `urllib.parse.urlsplit` restricted to scheme, netloc and path, on
query- and fragment-free input: a `scheme://netloc...` head yields the
lowercased scheme and the netloc up to the next `/`; a `//netloc...` head
yields a netloc with empty scheme; otherwise everything is path.  It agrees
with CPython exactly on inputs satisfying `baseWellFormed` below. -/
def urlSplit3 (s : String) : String × String × String :=
  let pre := s.data.takeWhile (fun c => !(c = ':' || c = '/'))
  match s.data.dropWhile (fun c => !(c = ':' || c = '/')) with
  | c :: rest =>
    if c = ':' then
      match rest with
      | c1 :: c2 :: rest2 =>
        if c1 = '/' && c2 = '/' then
          (pyLower (String.mk pre),
           String.mk (rest2.takeWhile (fun d => !(d = '/'))),
           String.mk (rest2.dropWhile (fun d => !(d = '/'))))
        else ("", "", s)
      | _ => ("", "", s)
    else
      if pyStartsWith s "//" then
        (("" : String),
         String.mk ((s.data.drop 2).takeWhile (fun d => !(d = '/'))),
         String.mk ((s.data.drop 2).dropWhile (fun d => !(d = '/'))))
      else ("", "", s)
  | [] => ("", "", s)

/-- The domain on which `urlSplit3` agrees with `urllib.parse.urlsplit`: either
no `:` occurs before the first `/` (CPython then recognises no scheme), or
the string starts `scheme://host...` with a valid nonempty scheme (ASCII
letter head, scheme characters) and a nonempty netloc. -/
def baseWellFormed (s : String) : Bool :=
  let pre := s.data.takeWhile (fun c => !(c = ':' || c = '/'))
  match s.data.dropWhile (fun c => !(c = ':' || c = '/')) with
  | c :: rest =>
    if c = ':' then
      match rest with
      | c1 :: c2 :: c3 :: _ =>
        c1 = '/' && c2 = '/' && !(c3 = '/') && !pre.isEmpty &&
          pre.all isSchemeChar &&
          (match pre with | d :: _ => d.isAlpha | [] => false)
      | _ => false
    else true
  | [] => true

/-- The scheme `urlparse` recognises on a reference: the part before the first
`:` when that part is a nonempty run of scheme characters starting with a
letter and containing no `/`; lowercased; `""` when there is none. -/
def relScheme (s : String) : String :=
  let pre := s.data.takeWhile (fun c => !(c = ':' || c = '/'))
  match s.data.dropWhile (fun c => !(c = ':' || c = '/')) with
  | c :: _ =>
    if c = ':' then
      if !pre.isEmpty && pre.all isSchemeChar &&
          (match pre with | d :: _ => d.isAlpha | [] => false) then
        pyLower (String.mk pre)
      else ""
    else ""
  | [] => ""

/-- The rest of a reference after its recognised scheme (the reference itself
when no scheme is present). -/
def afterScheme (s : String) : String :=
  match s.data.dropWhile (fun c => !(c = ':' || c = '/')) with
  | c :: rest => if c = ':' then String.mk rest else s
  | [] => s

/-- Embeds `urllib.parse.urlunsplit` restricted to scheme, netloc and path. -/
def unsplitUrl (scheme netloc path : String) : String :=
  let url :=
    if (netloc != "") || pyStartsWith path "//" then
      "//" ++ netloc ++
        (if (path != "") && !(pyStartsWith path "/") then "/" ++ path else path)
    else path
  if scheme != "" then scheme ++ ":" ++ url else url

/-- The action of the `urljoin` line
`segments[1:-1] = filter(None, segments[1:-1])` on the tail of the segment
list: empty segments before the last one are dropped, the last survives. -/
def filterMiddleAux : List String → List String
  | [] => []
  | [y] => [y]
  | y :: z :: rest =>
    if y = "" then filterMiddleAux (z :: rest)
    else y :: filterMiddleAux (z :: rest)

/-- Embeds `segments[1:-1] = filter(None, segments[1:-1])`: the first and last
segments survive, empty interior segments are dropped. -/
def filterMiddle : List String → List String
  | [] => []
  | x :: rest => x :: filterMiddleAux rest

/-- Embeds the `for seg in segments` resolution loop of `urljoin`: `..` pops a
resolved segment (popping an empty stack is ignored), `.` is skipped,
anything else is appended. -/
def resolveDotsLoop (acc : List String) : List String → List String
  | [] => acc
  | seg :: rest =>
    if seg = ".." then resolveDotsLoop acc.dropLast rest
    else if seg = "." then resolveDotsLoop acc rest
    else resolveDotsLoop (acc ++ [seg]) rest

/-- Resolves `.`/`..` in a segment list and joins with `/`, as the tail of
`urljoin` does: after the loop, a trailing `.` or `..` segment appends a
final empty segment, and an empty join falls back to `/`. -/
def resolveSegments (segments : List String) : String :=
  let resolved := resolveDotsLoop [] segments
  let resolved :=
    if segments.getLast? = some "." || segments.getLast? = some ".." then
      resolved ++ [""]
    else resolved
  if strIntercalate "/" resolved = "" then "/" else strIntercalate "/" resolved

/-- Embeds the relative-path merge of `urljoin`: split the base path on `/`
and delete the last piece unless it is empty (`if base_parts[-1] != '':
del base_parts[-1]`), append the split relative path, drop empty interior
segments, then resolve dots and join. -/
def mergeRelPath (bpath rel : String) : String :=
  let baseParts := splitOnChar '/' bpath
  let baseParts :=
    if baseParts.getLast? = some "" then baseParts else baseParts.dropLast
  resolveSegments (filterMiddle (baseParts ++ splitOnChar '/' rel))

/-- Embeds `urllib.parse.urljoin(base, url)` on the references `_build_url` can
pass: no query, fragment or `;` path parameters, and any netloc introduced
by `//` followed by a nonempty host.  Transcribed from CPython
`urllib/parse.py`: an empty base or url short-circuits; a url scheme
different from the base scheme, or a base scheme outside `uses_relative`,
returns the url unchanged; a url netloc wins; an absolute url path is
dot-resolved on its own (without interior filtering); otherwise the url path
is merged onto the base path.  Since every `uses_relative` scheme is also in
`uses_netloc`, the base netloc is always carried over in the merge case. -/
def pyUrljoin (base rel : String) : String :=
  if base = "" then rel
  else if rel = "" then base
  else
    let bscheme := (urlSplit3 base).1
    let rscheme := relScheme rel
    let scheme := if rscheme = "" then bscheme else rscheme
    if (scheme != bscheme) || !(usesRelative.contains scheme) then rel
    else
      let rest := if rscheme = "" then rel else afterScheme rel
      if pyStartsWith rest "//" then
        (if scheme = "" then rest else scheme ++ ":" ++ rest)
      else if rest = "" then base
      else if pyStartsWith rest "/" then
        unsplitUrl scheme (urlSplit3 base).2.1
          (resolveSegments (splitOnChar '/' rest))
      else
        unsplitUrl scheme (urlSplit3 base).2.1
          (mergeRelPath (urlSplit3 base).2.2 rest)

/-- Default `harvard_api_base_url` from `config.py`. -/
def harvard_api_base_url : String := "https://api.lib.harvard.edu/v2"

/-- Line 107 of `_build_url`: force a trailing slash on the base URL. -/
def ensureTrailingSlash (baseUrl : String) : String :=
  if endsWithChar baseUrl '/' then baseUrl else baseUrl ++ "/"

/-- Embeds `_build_url` (`api/client.py`, lines 105-119): force a trailing slash on
the base, strip leading slashes from the endpoint, join with
`urllib.parse.urljoin`, then append the urlencoded non-null parameters if
any. -/
def buildUrl (baseUrl endpoint : String) (params : List (String × Option ParamValue)) :
    String :=
  let base := ensureTrailingSlash baseUrl
  let cleanEndpoint := lstripSlashes endpoint
  let url := pyUrljoin base cleanEndpoint
  let filtered := params.filterMap (fun kv => kv.2.map (fun v => (kv.1, v)))
  if filtered.isEmpty then url else url ++ "?" ++ urlencode filtered

/-- No two consecutive slashes occur in the character list. -/
def noTwoSlashes : List Char → Bool
  | [] => true
  | [_] => true
  | a :: b :: rest => !(a = '/' && b = '/') && noTwoSlashes (b :: rest)

/-- The string contains no slash. -/
def slashFree (s : String) : Bool :=
  s.data.all (fun c => !(c = '/'))

/-- Every element of the list except the last is nonempty. -/
def initNonempty : List String → Bool
  | [] => true
  | [_] => true
  | y :: z :: rest => (y != "") && initNonempty (z :: rest)

/-- Every element of the list except the first and the last is nonempty. -/
def middlesNonempty : List String → Bool
  | [] => true
  | [_] => true
  | [_, _] => true
  | _ :: y :: z :: rest => (y != "") && middlesNonempty (y :: z :: rest)

/-! ## Search parameter construction (`api/client.py`, `search`, lines 290-379) -/

/-- Arguments of `HarvardLibraryClient.search`, with its Python defaults. -/
structure SearchArgs where
  query : Option String := none
  title : Option String := none
  author : Option String := none
  subject : Option String := none
  collection : Option String := none
  origin_place : Option String := none
  publication_place : Option String := none
  language : Option String := none
  format_type : Option String := none
  start_date : Option String := none
  end_date : Option String := none
  limit : Int := 20
  offset : Int := 0
  sort_by : Option String := none
  sort_order : String := "asc"
deriving DecidableEq, Repr

/-- A `None`-or-falsy optional string collapses to `none` (Python `if s:`). -/
def truthyOpt : Option String → Option String
  | none => none
  | some s => if s = "" then none else some s

/-- Append `(k, s)` when the optional string is truthy (`if s: params[k] = s`). -/
def addParamIfTruthy (ps : List (String × ParamValue)) (k : String) (o : Option String) :
    List (String × ParamValue) :=
  match truthyOpt o with
  | some s => ps ++ [(k, ParamValue.str s)]
  | none => ps

/-- The query-parameter dict built by `search` (lines 334-372), in insertion
order: `limit`/`start` first, then each truthy filter under its upstream
name (`author` travels as `name`, `collection` as `setName`, the date range
collapses to a single `dateIssued`, and a `desc` sort adds
`sortDirection=descending`). -/
def buildSearchParams (a : SearchArgs) : List (String × ParamValue) :=
  let ps : List (String × ParamValue) :=
    [("limit", ParamValue.num a.limit), ("start", ParamValue.num a.offset)]
  let ps := addParamIfTruthy ps "q" a.query
  let ps := addParamIfTruthy ps "title" a.title
  let ps := addParamIfTruthy ps "name" a.author
  let ps := addParamIfTruthy ps "subject" a.subject
  let ps := addParamIfTruthy ps "setName" a.collection
  let ps := addParamIfTruthy ps "originPlace" a.origin_place
  let ps := addParamIfTruthy ps "pubPlace" a.publication_place
  let ps := addParamIfTruthy ps "language" a.language
  let ps := addParamIfTruthy ps "resourceType" a.format_type
  let ps :=
    match truthyOpt a.start_date, truthyOpt a.end_date with
    | some s, some _ => ps ++ [("dateIssued", ParamValue.str s)]
    | some s, none => ps ++ [("dateIssued", ParamValue.str s)]
    | none, some e => ps ++ [("dateIssued", ParamValue.str e)]
    | none, none => ps
  match truthyOpt a.sort_by with
  | some sb =>
    let ps := ps ++ [("sort", ParamValue.str sb)]
    if a.sort_order = "desc" then ps ++ [("sortDirection", ParamValue.str "descending")]
    else ps
  | none => ps

/-- Endpoint suffix selection in `search` (lines 374-379). -/
def searchEndpoint (responseFormat : String) : String :=
  if responseFormat = "xml" then "items.xml" else "items.json"

/-! ## Field-specific tool wrappers (`tools/search_tools.py`)

Each wrapper forwards its field value as both the general query and the
field filter (lines 100-108, 147-155, 194-202, 241-249). -/

/-- Client arguments produced by `search_by_title`. -/
def searchByTitleArgs (title : String) (limit offset : Int) : SearchArgs :=
  { query := some title, title := some title, limit := limit, offset := offset }

/-- Client arguments produced by `search_by_author`. -/
def searchByAuthorArgs (author : String) (limit offset : Int) : SearchArgs :=
  { query := some author, author := some author, limit := limit, offset := offset }

/-- Client arguments produced by `search_by_subject`. -/
def searchBySubjectArgs (subject : String) (limit offset : Int) : SearchArgs :=
  { query := some subject, subject := some subject, limit := limit, offset := offset }

/-- Client arguments produced by `search_by_collection`. -/
def searchByCollectionArgs (collection : String) (limit offset : Int) : SearchArgs :=
  { query := some collection, collection := some collection, limit := limit, offset := offset }

/-! ## MCP tool surface (`server.py`)

Name tables transcribed from the server module: the tools enumerated by
`handle_list_tools`, the names routed by `handle_call_tool`, the names the
module imports from `tools.search_tools`, and the functions
`tools/search_tools.py` actually defines at top level. -/

/-- Tool names returned by `handle_list_tools` (`server.py`, lines 41-429). -/
def listToolNames : List String :=
  ["search_catalog", "search_by_title", "search_by_author", "search_by_subject",
   "search_by_collection", "search_by_date_range", "search_by_geographic_origin",
   "advanced_search", "get_record_details", "get_collections_list",
   "parse_mods_metadata", "parse_permalink"]

/-- Tool names `handle_call_tool` routes to a function (`server.py`,
lines 432-470). -/
def handleCallToolRoutes : List String :=
  ["search_catalog", "search_by_title", "search_by_author", "search_by_subject",
   "search_by_collection", "search_by_date_range", "search_by_geographic_origin",
   "advanced_search", "get_record_details", "get_collections_list",
   "parse_mods_metadata", "parse_permalink"]

/-- Names `server.py` imports from `.tools.search_tools` (lines 15-28). -/
def serverSearchToolImports : List String :=
  ["advanced_search", "get_collections_list", "get_record_details",
   "parse_permalink", "parse_mods_metadata", "search_by_author",
   "search_by_collection", "search_by_date_range", "search_by_geographic_origin",
   "search_by_subject", "search_by_title", "search_catalog"]

/-- Functions defined at top level in `tools/search_tools.py`. -/
def searchToolsDefinedFunctions : List String :=
  ["get_client", "search_catalog", "search_by_title", "search_by_author",
   "search_by_subject", "search_by_collection", "search_by_date_range",
   "search_by_geographic_origin", "advanced_search", "get_record_details",
   "get_collections_list", "parse_mods_metadata"]

/-! ## MODS metadata (`models/harvard_models.py`, `ModsMetadata`)

The pydantic model `ModsMetadata` (lines 64-118) with its two constructors
`from_xml` (lines 120-184) and `from_mods_dict` (lines 186-207).  pydantic
field validation is modelled explicitly: `Optional[Dict[str, Any]]` accepts a
dict or `None`, `Optional[List[Dict[str, Any]]]` a list of dicts or `None`;
anything else raises `ValidationError`, which both constructors catch by
returning the raw-text-only fallback instance. -/

open JValue in
/-- The `ModsMetadata` pydantic model: every field optional, `None` default. -/
structure ModsMetadataE where
  title_info : Option JValue := none
  name_info : Option (List JValue) := none
  origin_info : Option JValue := none
  language : Option JValue := none
  physical_description : Option JValue := none
  subjects : Option (List JValue) := none
  classification : Option (List JValue) := none
  related_items : Option (List JValue) := none
  identifiers : Option (List JValue) := none
  locations : Option (List JValue) := none
  record_info : Option JValue := none
  extensions : Option JValue := none
  raw_xml : Option String := none

/-- Validation of `Optional[Dict[str, Any]]`: absent or `None` gives `None`,
a dict passes, anything else is a `ValidationError`. -/
def vOptDict : Option JValue → Except Unit (Option JValue)
  | none => .ok none
  | some .null => .ok none
  | some (.obj fs) => .ok (some (.obj fs))
  | some _ => .error ()

/-- Validation that every element of a Python list is a dict
(`List[Dict[str, Any]]`). -/
def vListDicts (xs : List JValue) : Except Unit (List JValue) :=
  if xs.all (fun v => match v with | .obj _ => true | _ => false) then .ok xs
  else .error ()

/-- Validation of `Optional[List[Dict[str, Any]]]` on a directly supplied
value (no wrapping), as used for `locations` in `from_mods_dict` and for all
list fields in `from_xml`. -/
def vOptListDictDirect : Option JValue → Except Unit (Option (List JValue))
  | none => .ok none
  | some .null => .ok none
  | some (.arr xs) => (vListDicts xs).map some
  | some _ => .error ()

/-- The wrapping idiom of `from_mods_dict`
(`x if isinstance(x, list) else [x] if x else None`) followed by
`Optional[List[Dict]]` validation. -/
def vOptWrappedList (v : Option JValue) : Except Unit (Option (List JValue)) :=
  match v with
  | some (.arr xs) => (vListDicts xs).map some
  | some w => if w.pyTruthy then (vListDicts [w]).map some else .ok none
  | none => .ok none

/-- The fallback instance `cls(raw_xml=...)` returned when construction or
parsing fails. -/
def ModsMetadataE.minimal (raw : String) : ModsMetadataE :=
  { raw_xml := some raw }

open JValue in
/-- Field extraction and validation of `ModsMetadata.from_mods_dict` on a
dict argument (lines 189-204); a `ValidationError` is reported as `error`. -/
def fromModsDictCore (fs : List (String × JValue)) : Except Unit ModsMetadataE := do
  let titleInfo ← vOptDict (jGet fs "titleInfo")
  let nameInfo ← vOptWrappedList (jGet fs "name")
  let originInfo ← vOptDict (jGet fs "originInfo")
  let language ← vOptDict (jGet fs "language")
  let physicalDescription ← vOptDict (jGet fs "physicalDescription")
  let subjects ← vOptWrappedList (jGet fs "subject")
  let classification ← vOptWrappedList (jGet fs "classification")
  let relatedItems ← vOptWrappedList (jGet fs "relatedItem")
  let identifiers ← vOptWrappedList (jGet fs "identifier")
  let locations ← vOptListDictDirect (jGet fs "location")
  let recordInfo ← vOptDict (jGet fs "recordInfo")
  let extensions ← vOptDict (jGet fs "extension")
  pure { title_info := titleInfo, name_info := nameInfo, origin_info := originInfo,
         language := language, physical_description := physicalDescription,
         subjects := subjects, classification := classification,
         related_items := relatedItems, identifiers := identifiers,
         locations := locations, record_info := recordInfo,
         extensions := extensions, raw_xml := some (pyStr (.obj fs)) }

/-- Embeds `ModsMetadata.from_mods_dict`: on any exception (including a
`ValidationError`, or the `AttributeError` from `.get` on a non-dict) it
returns the raw-text-only instance. -/
def fromModsDict (md : JValue) : ModsMetadataE :=
  match md with
  | .obj fs =>
    match fromModsDictCore fs with
    | .ok m => m
    | .error _ => ModsMetadataE.minimal md.pyStr
  | _ => ModsMetadataE.minimal md.pyStr

/-! ## XML element model (`xml.etree.ElementTree`)

`from_xml` works on the element tree produced by `ElementTree.fromstring`;
the tree itself is modelled as `XmlElement` (tag, attributes, direct text,
children).  A document without an `xmlns` declaration yields plain tags; a
document with a default namespace yields `\x7buri\x7d`-prefixed tags. -/

/-- An ElementTree element. -/
structure XmlElement where
  tag : String
  attrib : List (String × String)
  text : Option String
  children : List XmlElement

/-- Insert one child entry: a fresh tag is appended, a repeated tag turns the
existing entry into a list and appends to it. -/
def addChildEntry (acc : List (String × JValue)) (tag : String) (cd : JValue) :
    List (String × JValue) :=
  match JValue.jGet acc tag with
  | none => acc ++ [(tag, cd)]
  | some (.arr xs) => acc.map (fun kv => if kv.1 = tag then (tag, JValue.arr (xs ++ [cd])) else kv)
  | some v => acc.map (fun kv => if kv.1 = tag then (tag, JValue.arr [v, cd]) else kv)

mutual

/-- The helper `element_to_dict` of `from_xml` (lines 143-165): attributes
first, stripped non-empty text under `"text"`, then children, with repeated
child tags collapsed into lists. -/
def elementToDict : XmlElement → JValue
  | ⟨_, attrib, text, children⟩ =>
    let base := attrib.map (fun kv => (kv.1, JValue.str kv.2))
    let base :=
      match text with
      | some t => if t ≠ "" && pyStrip t ≠ "" then base ++ [("text", JValue.str (pyStrip t))] else base
      | none => base
    JValue.obj (childrenFold base children)

/-- Folds child elements into the dict under construction, collapsing a
repeated tag into a list (lines 156-163). -/
def childrenFold (acc : List (String × JValue)) : List XmlElement → List (String × JValue)
  | [] => acc
  | c :: cs => childrenFold (addChildEntry acc c.tag (elementToDict c)) cs

end

mutual

/-- All elements with the given tag in the subtree rooted at the element,
the element itself included, in document order. -/
def findAllWithin (tag : String) : XmlElement → List XmlElement
  | ⟨t, attrib, text, children⟩ =>
    (if t = tag then [⟨t, attrib, text, children⟩] else []) ++ findAllInList tag children

/-- All elements with the given tag inside a forest, in document order. -/
def findAllInList (tag : String) : List XmlElement → List XmlElement
  | [] => []
  | c :: cs => findAllWithin tag c ++ findAllInList tag cs

end

/-- Embeds `root.findall(".//mods:" ++ tag, namespaces)`: all proper descendants of
the root whose tag is the namespace-qualified name. -/
def findAllDesc (root : XmlElement) (tag : String) : List XmlElement :=
  findAllInList tag root.children

/-- The MODS v3 namespace prefix ElementTree uses for qualified tags. -/
def modsNamespace : String := "\x7bhttp://www.loc.gov/mods/v3\x7d"

/-- The helper `extract_field` of `from_xml` (lines 132-141): no match gives
`None`, a unique match its dict, several matches a list of dicts.  The
lookup is namespace-qualified: only `\x7bhttp://www.loc.gov/mods/v3\x7d`-tagged
elements match. -/
def extractField (root : XmlElement) (tag : String) : Option JValue :=
  match findAllDesc root (modsNamespace ++ tag) with
  | [] => none
  | [e] => some (elementToDict e)
  | es => some (.arr (es.map elementToDict))

/-- Field extraction and validation of `ModsMetadata.from_xml` on a parsed
tree (lines 167-180); `extensions` is not set there. -/
def modsFromXmlCore (root : XmlElement) (raw : String) : Except Unit ModsMetadataE := do
  let titleInfo ← vOptDict (extractField root "titleInfo")
  let nameInfo ← vOptListDictDirect (extractField root "name")
  let originInfo ← vOptDict (extractField root "originInfo")
  let language ← vOptDict (extractField root "language")
  let physicalDescription ← vOptDict (extractField root "physicalDescription")
  let subjects ← vOptListDictDirect (extractField root "subject")
  let classification ← vOptListDictDirect (extractField root "classification")
  let relatedItems ← vOptListDictDirect (extractField root "relatedItem")
  let identifiers ← vOptListDictDirect (extractField root "identifier")
  let locations ← vOptListDictDirect (extractField root "location")
  let recordInfo ← vOptDict (extractField root "recordInfo")
  pure { title_info := titleInfo, name_info := nameInfo, origin_info := originInfo,
         language := language, physical_description := physicalDescription,
         subjects := subjects, classification := classification,
         related_items := relatedItems, identifiers := identifiers,
         locations := locations, record_info := recordInfo,
         extensions := none, raw_xml := some raw }

/-- Embeds `ModsMetadata.from_xml` on a successfully parsed document: any exception
(in particular a `ValidationError`) degrades to the raw-text-only instance
(lines 182-184). -/
def modsFromXml (root : XmlElement) (raw : String) : ModsMetadataE :=
  match modsFromXmlCore root raw with
  | .ok m => m
  | .error _ => ModsMetadataE.minimal raw

open JValue in
/-- The simplified title computed by the `parse_mods_metadata` tool
(`tools/search_tools.py`, lines 616-621): look up the unqualified key
`"title"` inside `title_info` and take its `"text"` entry (or the value
itself).  `None` when `title_info` is absent, falsy, or has no truthy
`"title"` key. -/
def parseModsSimplifiedTitle (m : ModsMetadataE) : Option JValue :=
  match m.title_info with
  | some (.obj fs) =>
    if fs.isEmpty then none
    else
      match jGet fs "title" with
      | some t =>
        if t.pyTruthy then
          some (match t with
                | .obj tfs => jGetD tfs "text" t
                | _ => JValue.str t.pyStr)
        else none
      | none => none
  | _ => none

/-- Raw text of the sample document from the specification (its ellipsis
elides further sibling elements, which cannot affect the title fields). -/
def sampleModsXmlText : String :=
  "<mods><titleInfo><title>Test Book Title</title></titleInfo></mods>"

/-- Modelled `ElementTree.fromstring` parse of the sample document: the
document declares no `xmlns`, so every tag is unqualified. -/
def sampleModsXmlTree : XmlElement :=
  ⟨"mods", [], none,
    [⟨"titleInfo", [], none, [⟨"title", [], some "Test Book Title", []⟩]⟩]⟩

/-! ## Permalink derivation (`api/client.py`, `_compute_permalink_candidate`,
lines 677-746) -/

/-- Maximal run of ASCII digits at the head of the character list. -/
def digitRun : List Char → List Char
  | [] => []
  | c :: cs => if c.isDigit then c :: digitRun cs else []

/-- A match of the regex `99\d\x7b8,\x7d` anchored at the head of the list:
two literal nines followed by at least eight digits, the greedy quantifier
taking the whole digit run. -/
def match99At : List Char → Option (List Char)
  | '9' :: '9' :: rest =>
    let run := digitRun rest
    if 8 ≤ run.length then some ('9' :: '9' :: run) else none
  | _ => none

/-- Leftmost search for the pattern, scanning start positions left to right
(`re.search` semantics). -/
def search99Aux : List Char → Option String
  | [] => none
  | c :: cs =>
    match match99At (c :: cs) with
    | some m => some (String.mk m)
    | none => search99Aux cs

/-- Embeds `re.search(r"99\d\x7b8,\x7d", s)`: the leftmost match, if any. -/
def search99 (s : String) : Option String :=
  search99Aux s.data

/-- The Alma permalink built from a matched MMS id (line 743). -/
def almaPermalink (mms : String) : String :=
  "https://id.lib.harvard.edu/alma/" ++ mms ++ "/catalog"

open JValue in
/-- Step 1 of permalink derivation: scan identifier values in insertion
order, skipping falsy ones, returning the first match (lines 696-703). -/
def idsSearch : List (String × JValue) → Option String
  | [] => none
  | (_, v) :: rest =>
    if v.pyTruthy then
      match search99 v.pyStr with
      | some m => some m
      | none => idsSearch rest
    else idsSearch rest

open JValue in
/-- The candidate value of one `recordIdentifier` entry:
`cand.get("text") or cand.get("#text") or str(cand)` for dicts, `str(cand)`
otherwise (lines 719-724). -/
def candChainVal (cand : JValue) : JValue :=
  match cand with
  | .obj fs => pyOr (jGetD fs "text" .null) (pyOr (jGetD fs "#text" .null) (.str (pyStr cand)))
  | _ => .str cand.pyStr

/-- Scan the `recordIdentifier` candidates; a non-string candidate value
reaching `re.search` raises `TypeError` (reported as `error`, which the
outer handler of `_compute_permalink_candidate` turns into `None`). -/
def candLoop : List JValue → Except Unit (Option String)
  | [] => .ok none
  | cand :: rest =>
    match candChainVal cand with
    | .str s =>
      match search99 s with
      | some m => .ok (some m)
      | none => candLoop rest
    | _ => .error ()

open JValue in
/-- The `recordIdentifier` candidates contributed by the MODS `record_info`
block when the metadata object exists and `record_info` is a truthy dict: a
list as is, a non-`None` scalar as a singleton, nothing otherwise
(lines 706-716). -/
def recordInfoCands (meta : Option ModsMetadataE) : List JValue :=
  match meta with
  | none => []
  | some m =>
    match m.record_info with
    | some (.obj fs) =>
      if fs.isEmpty then []
      else
        match jGet fs "recordIdentifier" with
        | some (.arr xs) => xs
        | some .null => []
        | some v => [v]
        | none => []
    | _ => []

/-- Step 2 of permalink derivation (lines 705-728): scan the
`recordIdentifier` candidates. -/
def step2RecordInfo (meta : Option ModsMetadataE) : Except Unit (Option String) :=
  candLoop (recordInfoCands meta)

open JValue in
/-- Embeds `_compute_permalink_candidate`: try identifier values, then MODS record
info, then `str(record_id)` (when truthy), then the serialized record data
(when truthy); any internal exception yields `None` (lines 691-746). -/
def computePermalinkCandidate (recordId : JValue) (identifiers : List (String × JValue))
    (meta : Option ModsMetadataE) (recordData : JValue) : Option String :=
  match idsSearch identifiers with
  | some m => some (almaPermalink m)
  | none =>
    match step2RecordInfo meta with
    | .error _ => none
    | .ok (some m) => some (almaPermalink m)
    | .ok none =>
      match (if recordId.pyTruthy then search99 recordId.pyStr else none) with
      | some m => some (almaPermalink m)
      | none =>
        match (if recordData.pyTruthy then search99 recordData.pyStr else none) with
        | some m => some (almaPermalink m)
        | none => none

/-! ## Record normalization (`api/client.py`, `_parse_harvard_record`,
lines 466-675)

Exceptions raised inside the body (`TypeError` from iterating a non-iterable,
`AttributeError` from calling string methods on non-strings, pydantic
`ValidationError` at `HarvardRecord(...)` construction) are modelled as
`Except.error`; the enclosing handler (lines 669-675) turns them into a
minimal record.  Where the source defers a type failure to the constructor,
the model reports the error at the point the ill-typed value is produced:
no output is observable in between, so the resulting record is the same. -/

open JValue in
/-- The `HarvardRecord` pydantic model (`models/harvard_models.py`, lines
210-265) with its declared fields and defaults.  `identifiers` is a
`Dict[str, str]` defaulting to the empty dict; note that the model declares
no `permalink` field. -/
structure HarvardRecordE where
  id : String
  title : Option String := none
  authors : Option (List String) := none
  publication_date : Option String := none
  publisher : Option String := none
  language : Option String := none
  format_type : Option String := none
  subjects : Option (List String) := none
  description : Option String := none
  identifiers : List (String × String) := []
  holdings : Option (List JValue) := none
  classification : Option (List String) := none
  collections : Option (List String) := none
  stackscore : Option ℚ := none
  digital_content : Bool := false
  mods_metadata : Option ModsMetadataE := none
  raw_data : Option JValue := none

/-- The keys `HarvardRecord.model_dump()` emits: exactly the declared model
fields.  Extra constructor keyword arguments (such as `permalink=`) are
discarded by pydantic (default `extra="ignore"`) and never appear here. -/
def HarvardRecordE.modelDumpKeys (r : HarvardRecordE) : List String :=
  ["id", "title", "authors", "publication_date", "publisher", "language",
   "format_type", "subjects", "description", "identifiers", "holdings",
   "classification", "collections", "stackscore", "digital_content",
   "mods_metadata", "raw_data"]

/-- pydantic validation of a `str` field: only a Python `str` passes. -/
def asStr : JValue → Except Unit String
  | .str s => .ok s
  | _ => .error ()

/-- pydantic validation of every element of a `List[str]` field. -/
def asStrList : List JValue → Except Unit (List String)
  | [] => .ok []
  | v :: vs => do
    let s ← asStr v
    let ss ← asStrList vs
    pure (s :: ss)

/-- pydantic validation of the values of a `Dict[str, str]` field. -/
def asStrPairs : List (String × JValue) → Except Unit (List (String × String))
  | [] => .ok []
  | (k, v) :: rest => do
    let s ← asStr v
    let ss ← asStrPairs rest
    pure ((k, s) :: ss)

/-- pydantic validation of an `Optional[str]` field value: `str` or `None`. -/
def optStrValidated : JValue → Except Unit (Option String)
  | .str s => .ok (some s)
  | .null => .ok none
  | _ => .error ()

/-- An `Optional[str]` field passed as `value or None`: falsy collapses to
`None`, a truthy value must be a `str`. -/
def optOfTruthyStr (v : JValue) : Except Unit (Option String) :=
  if v.pyTruthy then (asStr v).map some else .ok none

/-- A `List[str]` field passed as `value if value else None`: an empty list
collapses to `None`, a non-empty one is validated element-wise. -/
def optNonemptyStrList (xs : List JValue) : Except Unit (Option (List String)) :=
  if xs.isEmpty then .ok none else (asStrList xs).map some

open JValue in
/-- Embeds `_extract_from_mods` (lines 748-767): try each key on a dict, unwrap a
`#text` entry of a dict value, return a non-empty dict as is (an empty dict
falls through to the next key), unwrap the first item of a non-empty list
(again through `#text`), return an empty list or scalar as is; default when
no key matches. -/
def extractFromMods (data : JValue) (keys : List String) (dflt : JValue) : JValue :=
  match keys with
  | [] => dflt
  | k :: rest =>
    match data with
    | .obj fs =>
      match jGet fs k with
      | none => extractFromMods data rest dflt
      | some value =>
        match value with
        | .obj vfs =>
          match jGet vfs "#text" with
          | some t => t
          | none => if vfs.isEmpty then extractFromMods data rest dflt else value
        | .arr [] => value
        | .arr (first :: _) =>
          match first with
          | .obj ffs =>
            match jGet ffs "#text" with
            | some t => t
            | none => first
          | _ => first
        | _ => value
    | _ => extractFromMods data rest dflt

open JValue in
/-- Embeds `_extract_text_content` (lines 769-783): strings as is, dicts through
`#text` then `text` then `str()` (empty dict gives `""`), lists through
their first item, anything else `""`.  The result is an arbitrary value
because `#text` entries need not be strings. -/
def extractTextContent : JValue → JValue
  | .str s => .str s
  | .obj fs =>
    match jGet fs "#text" with
    | some t => t
    | none =>
      match jGet fs "text" with
      | some t => t
      | none => if fs.isEmpty then .str "" else .str (pyStr (.obj fs))
  | .arr (x :: _) => extractTextContent x
  | _ => .str ""

/-- Models `hash(str(mods_data)) % 1000000` in the synthesized-id fallback
(line 498).  CPython string hashing is process-randomised via
`PYTHONHASHSEED`, so any fixed deterministic hash models it faithfully; the
claims depend only on the non-empty `harvard-` prefix. -/
def pyHashMod (s : String) : Nat :=
  s.data.foldl (fun a c => (a * 31 + c.toNat) % 1000000) 7

open JValue in
/-- Record-id candidate chain of the MODS branch (lines 483-498): MODS
record identifier, then the first `identifier` entry, then a bare `id`,
each accepted when truthy, otherwise a synthesized `harvard-<hash>` id. -/
def modsRecordId (md : JValue) : JValue :=
  let r1 := extractTextContent (extractFromMods md ["recordInfo", "recordIdentifier"] (.str ""))
  if r1.pyTruthy then r1 else
  let r2 := extractTextContent (extractFromMods md ["identifier", "0"] (.str ""))
  if r2.pyTruthy then r2 else
  let r3 := extractTextContent (extractFromMods md ["id"] (.str ""))
  if r3.pyTruthy then r3 else
  .str ("harvard-" ++ toString (pyHashMod md.pyStr))

open JValue in
/-- Title extraction of the MODS branch (lines 501-507): `titleInfo` as a
dict, or the first element of a `titleInfo` list, else `""`. -/
def modsTitleJ (md : JValue) : JValue :=
  match extractFromMods md ["titleInfo"] (.obj []) with
  | .obj fs => extractTextContent (extractFromMods (.obj fs) ["title"] (.str ""))
  | .arr (x :: _) => extractTextContent (extractFromMods x ["title"] (.str ""))
  | _ => .str ""

open JValue in
/-- The dict-or-first-of-list field pattern shared by the `originInfo` and
`language` extractions of the MODS branch (lines 527-550). -/
def modsInfoField (info : JValue) (key : String) : JValue :=
  match info with
  | .obj _ => extractTextContent (extractFromMods info [key] (.str ""))
  | .arr (x :: _) => extractTextContent (extractFromMods x [key] (.str ""))
  | _ => .str ""

open JValue in
/-- Normalisation of `name_info` before the author loop (lines 512-516): a
dict becomes a singleton, a truthy non-list is wrapped as
`[\x7b"namePart": str(v)\x7d]`, the empty string iterates to nothing, and
iterating any other falsy non-list (`None`, `0`, `False`) raises
`TypeError`. -/
def modsNameList (md : JValue) : Except Unit (List JValue) :=
  match extractFromMods md ["name", "nameInfo"] (.arr []) with
  | .obj fs => .ok [.obj fs]
  | .arr xs => .ok xs
  | .str s => if s = "" then .ok [] else .ok [JValue.obj [("namePart", .str s)]]
  | v => if v.pyTruthy then .ok [JValue.obj [("namePart", .str v.pyStr)]] else .error ()

open JValue in
/-- Author values gathered from the name entries (lines 518-524): for each
dict entry, a `namePart` list contributes its truthy items through
`_extract_text_content`, a truthy non-list `namePart` contributes itself;
non-dict entries are skipped. -/
def modsCollectAuthors : List JValue → List JValue
  | [] => []
  | item :: rest =>
    match item with
    | .obj fs =>
      (match extractFromMods (.obj fs) ["namePart"] (.arr []) with
       | .arr xs => (xs.filter pyTruthy).map extractTextContent
       | v => if v.pyTruthy then [extractTextContent v] else []) ++ modsCollectAuthors rest
    | _ => modsCollectAuthors rest

open JValue in
/-- Python iteration over the value used for the `subject` and `identifier`
loops (lines 554-556 and 572-574): a dict is wrapped into a singleton
first, a list iterates its items, a string its characters, and anything
else raises `TypeError`. -/
def modsIterable (v : JValue) : Except Unit (List JValue) :=
  match v with
  | .obj fs => .ok [.obj fs]
  | .arr xs => .ok xs
  | .str s => .ok (s.data.map (fun c => JValue.str (String.singleton c)))
  | _ => .error ()

open JValue in
/-- Subject values gathered from the subject entries (lines 558-564). -/
def modsCollectSubjects : List JValue → List JValue
  | [] => []
  | item :: rest =>
    match item with
    | .obj fs =>
      (match extractFromMods (.obj fs) ["topic"] (.arr []) with
       | .arr xs => (xs.filter pyTruthy).map extractTextContent
       | v => if v.pyTruthy then [extractTextContent v] else []) ++ modsCollectSubjects rest
    | _ => modsCollectSubjects rest

open JValue in
/-- Identifier dict built from the identifier entries (lines 576-581): for
each dict entry, `id_type` is the upper-cased `@type` attribute (a
non-string `@type` raises at `.upper()`), `id_value` the extracted text
content; truthy values are stored under their type, later entries of the
same type overwriting earlier ones. -/
def modsIdentifiersLoop (acc : List (String × JValue)) :
    List JValue → Except Unit (List (String × JValue))
  | [] => .ok acc
  | item :: rest =>
    match item with
    | .obj fs =>
      (match jGetD fs "@type" (.str "") with
       | .str s =>
         let idValue := extractTextContent (.obj fs)
         if idValue.pyTruthy then modsIdentifiersLoop (dictInsert acc (pyUpper s) idValue) rest
         else modsIdentifiersLoop acc rest
       | _ => .error ())
    | _ => modsIdentifiersLoop acc rest

open JValue in
/-- The identifier dict of the MODS branch, built by the loop above starting
from the empty dict. -/
def modsIdentifiers (items : List JValue) : Except Unit (List (String × JValue)) :=
  modsIdentifiersLoop [] items

open JValue in
/-- The MODS branch of `_parse_harvard_record` (lines 481-612): extract each
field, build the metadata object, compute the permalink candidate and
construct the record.  The computed permalink is passed to the
`HarvardRecord(...)` constructor in the source but, the model declaring no
such field, pydantic discards it; the binding is therefore unused here. -/
def modsPath (md d : JValue) (fmt : String) : Except Unit HarvardRecordE := do
  let idJ := modsRecordId md
  let recordId ← asStr idJ
  let title ← optStrValidated (modsTitleJ md)
  let nameItems ← modsNameList md
  let authors ← optNonemptyStrList (modsCollectAuthors nameItems)
  let originInfo := extractFromMods md ["originInfo"] (.obj [])
  let pubDate ← optOfTruthyStr (modsInfoField originInfo "dateIssued")
  let publisher ← optOfTruthyStr (modsInfoField originInfo "publisher")
  let languageData := extractFromMods md ["language"] (.obj [])
  let language ← optOfTruthyStr (modsInfoField languageData "languageTerm")
  let subjectItems ← modsIterable (extractFromMods md ["subject"] (.arr []))
  let subjects ← optNonemptyStrList (modsCollectSubjects subjectItems)
  let description ← optOfTruthyStr (extractTextContent (extractFromMods md ["abstract", "note"] (.str "")))
  let idItems ← modsIterable (extractFromMods md ["identifier"] (.arr []))
  let identifiersJ ← modsIdentifiers idItems
  let identifiers ← asStrPairs identifiersJ
  let formatT ← optOfTruthyStr (extractTextContent (extractFromMods md ["physicalDescription", "form"] (.str "")))
  let modsMeta := fromModsDict md
  let _permalink := computePermalinkCandidate idJ identifiersJ (some modsMeta) d
  pure { id := recordId, title := title, authors := authors,
         publication_date := pubDate, publisher := publisher, language := language,
         format_type := formatT, subjects := subjects, description := description,
         identifiers := identifiers, mods_metadata := some modsMeta,
         raw_data := some d }

/-! ### Non-MODS fallback extractors (lines 614-667 and 785-1088) -/

open JValue in
/-- Embeds `_get_nested_value` (lines 1077-1088): walk a `/`-separated key path. -/
def walkPath : List String → JValue → Option JValue
  | [], v => some v
  | k :: rest, .obj fs =>
    match jGet fs k with
    | some v => walkPath rest v
    | none => none
  | _ :: _, _ => none

/-- Embeds `_get_nested_value` applied to a record dict and a path string. -/
def getNestedValue (d : JValue) (path : String) : Option JValue :=
  walkPath (splitOnChar '/' path) d

open JValue in
/-- The shared single-string extractor pattern of `_extract_title`,
`_extract_publication_date`, `_extract_publisher`, `_extract_language`,
`_extract_format_type` and `_extract_description` (lines 785-802 and
829-945; the two source variants of the truthiness guard are extensionally
identical): the first field whose value is a truthy string is returned
stripped, a dict with a `"text"` entry returns that entry stripped (raising
`AttributeError` when the entry is not a string), everything else moves on
to the next field. -/
def extractStrField (d : JValue) : List String → Except Unit (Option String)
  | [] => .ok none
  | f :: rest =>
    match getNestedValue d f with
    | some (.str s) => if s = "" then extractStrField d rest else .ok (some (pyStrip s))
    | some (.obj fs) =>
      (match jGet fs "text" with
       | some (.str t) => .ok (some (pyStrip t))
       | some _ => .error ()
       | none => extractStrField d rest)
    | _ => extractStrField d rest

open JValue in
/-- The shared list extractor pattern of `_extract_authors` and
`_extract_subjects` (lines 804-827 and 906-926): every field contributes; a
truthy list its truthy items through `str()`, a truthy string itself
stripped, a dict with `"text"` that entry stripped (raising on a non-string
entry). -/
def extractListField (d : JValue) (acc : List String) :
    List String → Except Unit (List String)
  | [] => .ok acc
  | f :: rest =>
    match getNestedValue d f with
    | some v =>
      if v.pyTruthy then
        match v with
        | .arr xs => extractListField d (acc ++ (xs.filter pyTruthy).map pyStr) rest
        | .str s => extractListField d (acc ++ [pyStrip s]) rest
        | .obj fs =>
          (match jGet fs "text" with
           | some (.str t) => extractListField d (acc ++ [pyStrip t]) rest
           | some _ => .error ()
           | none => extractListField d acc rest)
        | _ => extractListField d acc rest
      else extractListField d acc rest
    | none => extractListField d acc rest

open JValue in
/-- Embeds `_extract_classification` (lines 997-1016): like the list pattern but
with no dict branch, so it cannot raise. -/
def extractClassification (d : JValue) (acc : List String) : List String → List String
  | [] => acc
  | f :: rest =>
    match getNestedValue d f with
    | some v =>
      if v.pyTruthy then
        match v with
        | .arr xs => extractClassification d (acc ++ (xs.filter pyTruthy).map pyStr) rest
        | .str s => extractClassification d (acc ++ [pyStrip s]) rest
        | _ => extractClassification d acc rest
      else extractClassification d acc rest
    | none => extractClassification d acc rest

open JValue in
/-- Embeds `_extract_collections` (lines 1018-1037): direct `data.get(field)`
lookups, list and string branches only. -/
def extractCollections (fs : List (String × JValue)) (acc : List String) :
    List String → List String
  | [] => acc
  | f :: rest =>
    match jGet fs f with
    | some v =>
      if v.pyTruthy then
        match v with
        | .arr xs => extractCollections fs (acc ++ (xs.filter pyTruthy).map pyStr) rest
        | .str s => extractCollections fs (acc ++ [pyStrip s]) rest
        | _ => extractCollections fs acc rest
      else extractCollections fs acc rest
    | none => extractCollections fs acc rest

open JValue in
/-- Embeds `_extract_holdings` (lines 977-995): the first truthy value wins; a list
as is, a dict as a singleton, a string as a one-entry location dict. -/
def extractHoldings (d : JValue) : List String → Option (List JValue)
  | [] => none
  | f :: rest =>
    match getNestedValue d f with
    | some v =>
      if v.pyTruthy then
        match v with
        | .arr xs => some xs
        | .obj fs => some [.obj fs]
        | .str s => some [JValue.obj [("location", .str s)]]
        | _ => extractHoldings d rest
      else extractHoldings d rest
    | none => extractHoldings d rest

/-- pydantic validation of `Optional[List[Dict[str, Any]]]` for the
`holdings` field. -/
def validateHoldings : Option (List JValue) → Except Unit (Option (List JValue))
  | none => .ok none
  | some xs => (vListDicts xs).map some

/-- Models Python `float(v)` under the `except (ValueError, TypeError)`
guard of `_extract_stackscore`: numbers and booleans convert, a string
parses as an optionally signed decimal literal (surrounding whitespace
allowed), anything else fails. -/
def pyFloatOpt : JValue → Option ℚ
  | .num n => some (n : ℚ)
  | .bool b => some (if b then 1 else 0)
  | .str s =>
    let t := pyStrip s
    let (sign, body) :=
      match t.data with
      | '-' :: rest => ((-1 : ℚ), rest)
      | '+' :: rest => ((1 : ℚ), rest)
      | cs => ((1 : ℚ), cs)
    (match body.span (fun c => c.isDigit) with
     | (intPart, rest) =>
       if intPart.isEmpty then none
       else
         match rest with
         | [] => some (sign * (digitsToNat intPart 0 : ℚ))
         | '.' :: frac =>
           if frac.all (fun c => c.isDigit) then
             some (sign * ((digitsToNat intPart 0 : ℚ) +
               (digitsToNat frac 0 : ℚ) / ((10 : ℚ) ^ frac.length)))
           else none
         | _ => none)
  | _ => none

open JValue in
/-- Embeds `_extract_stackscore` (lines 1039-1056): the first truthy value that
converts through `float()` wins. -/
def extractStackscore (fs : List (String × JValue)) : List String → Option ℚ
  | [] => none
  | f :: rest =>
    match jGet fs f with
    | some v =>
      if v.pyTruthy then
        match pyFloatOpt v with
        | some q => some q
        | none => extractStackscore fs rest
      else extractStackscore fs rest
    | none => extractStackscore fs rest

open JValue in
/-- Embeds `_extract_digital_content` (lines 1058-1075): the first truthy boolean
is returned as is, the first truthy string compares its lower-casing
against `true`/`yes`/`1`; other truthy values move on; default `False`. -/
def extractDigitalContent (fs : List (String × JValue)) : List String → Bool
  | [] => false
  | f :: rest =>
    match jGet fs f with
    | some v =>
      if v.pyTruthy then
        match v with
        | .bool b => b
        | .str s => pyLower s = "true" || pyLower s = "yes" || pyLower s = "1"
        | _ => extractDigitalContent fs rest
      else extractDigitalContent fs rest
    | none => extractDigitalContent fs rest

/-- In-place-or-append assignment on a string-valued dict
(`identifiers[k] = v`). -/
def strDictInsert (fs : List (String × String)) (k v : String) :
    List (String × String) :=
  if (fs.lookup k).isSome then
    fs.map (fun kv => if kv.1 = k then (k, v) else kv)
  else
    fs ++ [(k, v)]

/-- The five typed identifier names probed by `_extract_identifiers`. -/
def identTypeNames : List String := ["ISBN", "ISSN", "OCLC", "LCCN", "DOI"]

open JValue in
/-- The typed probe of `_extract_identifiers` (lines 952-958): the path
`identifier[@type=\x27<lower>\x27]` is looked up literally by
`_get_nested_value` and stored under the type through `str()` when truthy. -/
def extractTypedIdentifiers (d : JValue) (acc : List (String × String)) :
    List String → List (String × String)
  | [] => acc
  | t :: rest =>
    let path := "identifier[@type=\x27" ++ pyLower t ++ "\x27]"
    match getNestedValue d path with
    | some v =>
      if v.pyTruthy then extractTypedIdentifiers d (strDictInsert acc t v.pyStr) rest
      else extractTypedIdentifiers d acc rest
    | none => extractTypedIdentifiers d acc rest

open JValue in
/-- The generic probe of `_extract_identifiers` (lines 960-973): string
values of `identifier`/`id`/`ID` are classified by prefix. -/
def extractGenericIdentifiers (fs : List (String × JValue)) (acc : List (String × String)) :
    List String → List (String × String)
  | [] => acc
  | f :: rest =>
    match jGet fs f with
    | some (.str s) =>
      if s = "" then extractGenericIdentifiers fs acc rest
      else
        let acc :=
          if pyStartsWith s "978" || pyStartsWith s "979" then strDictInsert acc "ISBN" s
          else if pyStartsWith s "977" then strDictInsert acc "ISSN" s
          else if pyStartsWith s "ocm" then strDictInsert acc "OCLC" s
          else strDictInsert acc "ID" s
        extractGenericIdentifiers fs acc rest
    | _ => extractGenericIdentifiers fs acc rest

open JValue in
/-- Embeds `_extract_identifiers` (lines 947-975): typed probes then generic
probes, building a `Dict[str, str]`. -/
def extractIdentifiersFallback (fs : List (String × JValue)) : List (String × String) :=
  extractGenericIdentifiers fs
    (extractTypedIdentifiers (.obj fs) [] identTypeNames)
    ["identifier", "id", "ID"]

/-- Models `ModsMetadata.from_xml(str(record_data["mods"]))` on the fallback
branch (lines 637-638).  That branch runs only when the `"mods"` value is
falsy (a truthy one takes the MODS branch), so the serialized form is one
of `""`, `"[]"`, `"0"`, `"None"`, `"False"` or the empty-dict repr, none of
which is well-formed XML: `ElementTree.fromstring` raises and `from_xml`
returns the raw-text-only instance. -/
def fromXmlOfSerialized (s : String) : ModsMetadataE :=
  ModsMetadataE.minimal s

open JValue in
/-- The non-MODS fallback branch of `_parse_harvard_record` (lines 614-667).
The record id is the `id`/`@id`/`recordId` truthiness chain (possibly the
empty string); as in the MODS branch the computed permalink is discarded by
the constructor. -/
def fallbackPath (fs : List (String × JValue)) (fmt : String) :
    Except Unit HarvardRecordE := do
  let d := JValue.obj fs
  let recordIdJ := pyOr (jGetD fs "id" .null) (pyOr (jGetD fs "@id" .null) (jGetD fs "recordId" (.str "")))
  let title ← extractStrField d ["titleInfo/title", "title", "Title", "mods/titleInfo/title"]
  let authorsL ← extractListField d [] ["nameInfo/namePart", "author", "Author", "creator", "Creator"]
  let pubDate ← extractStrField d ["originInfo/dateIssued", "dateIssued", "date", "Date", "publicationDate", "pubDate"]
  let publisher ← extractStrField d ["originInfo/publisher", "publisher", "Publisher"]
  let language ← extractStrField d ["language/languageTerm", "language", "Language"]
  let formatT ← extractStrField d ["physicalDescription/form", "format", "Format", "resourceType", "type"]
  let subjectsL ← extractListField d [] ["subject/topic", "subject", "Subject"]
  let description ← extractStrField d ["abstract", "description", "Description", "note"]
  let identifiers := extractIdentifiersFallback fs
  let holdings ← validateHoldings (extractHoldings d ["location", "holdings", "Holdings"])
  let classificationL := extractClassification d [] ["classification", "Classification", "lcc", "dewey"]
  let collectionsL := extractCollections fs [] ["setName", "collection", "Collection", "setSpec"]
  let stackscore := extractStackscore fs ["stackscore", "Stackscore", "usage", "popularity"]
  let digital := extractDigitalContent fs ["digital", "online", "electronic", "hasDigital"]
  let modsMeta :=
    if fmt = "xml" && (jGet fs "mods").isSome then
      some (fromXmlOfSerialized (pyStr (jGetD fs "mods" .null)))
    else none
  let recordId ← asStr recordIdJ
  let _permalink := computePermalinkCandidate recordIdJ
    (identifiers.map (fun kv => (kv.1, JValue.str kv.2))) modsMeta d
  pure { id := recordId, title := title,
         authors := if authorsL.isEmpty then none else some authorsL,
         publication_date := pubDate, publisher := publisher, language := language,
         format_type := formatT,
         subjects := if subjectsL.isEmpty then none else some subjectsL,
         description := description, identifiers := identifiers,
         holdings := holdings,
         classification := if classificationL.isEmpty then none else some classificationL,
         collections := if collectionsL.isEmpty then none else some collectionsL,
         stackscore := stackscore, digital_content := digital,
         mods_metadata := modsMeta, raw_data := some d }

open JValue in
/-- The MODS-shape dispatch of `_parse_harvard_record` (lines 474-481): a
truthy `"mods"` value is the MODS payload; with no `"mods"` key, a dict
carrying `titleInfo`/`name`/`originInfo` is itself the payload; otherwise
the fallback branch runs. -/
def modsDataOf (fs : List (String × JValue)) : Option JValue :=
  match jGet fs "mods" with
  | some v => if v.pyTruthy then some v else none
  | none =>
    if (jGet fs "titleInfo").isSome || (jGet fs "name").isSome || (jGet fs "originInfo").isSome then
      if (JValue.obj fs).pyTruthy then some (.obj fs) else none
    else none

/-- The body of `_parse_harvard_record` before its exception handler.  A
non-dict argument always raises: `"mods" in x` is a `TypeError` for
numbers, booleans and `None`; for strings and lists the membership test may
succeed but the subsequent `x["mods"]` subscript (or, on the fallback
branch, `x.get(...)`) raises. -/
def parseRecordCore (d : JValue) (fmt : String) : Except Unit HarvardRecordE :=
  match d with
  | .obj fs =>
    match modsDataOf fs with
    | some md => modsPath md (.obj fs) fmt
    | none => fallbackPath fs fmt
  | _ => .error ()

open JValue in
/-- The minimal record built by the exception handler (lines 672-675):
`str(record_data.get("id", "unknown"))` plus the raw payload. -/
def minimalRecord (fs : List (String × JValue)) : HarvardRecordE :=
  { id := pyStr (jGetD fs "id" (.str "unknown")), raw_data := some (.obj fs) }

/-- Embeds `_parse_harvard_record`: the body, with any exception replaced by the
minimal record.  For a non-dict argument the handler itself re-raises (its
`record_data.get` is again an `AttributeError`), so the error propagates to
the caller. -/
def parseHarvardRecord (d : JValue) (fmt : String) : Except Unit HarvardRecordE :=
  match parseRecordCore d fmt with
  | .ok r => .ok r
  | .error _ =>
    match d with
    | .obj fs => .ok (minimalRecord fs)
    | _ => .error ()

/-! ## Search result assembly (`api/client.py`, `search`, lines 381-417) -/

/-- The `HarvardSearchResult` pydantic model (`models/harvard_models.py`,
lines 288-314), restricted to the fields `search` populates. -/
structure HarvardSearchResultE where
  records : List HarvardRecordE
  total_count : Int
  limit : Int
  offset : Int
  has_more : Bool
  raw_response : Option JValue

/-- The result object `search` returns once records and total count have
been extracted (lines 396-413): each raw record is parsed, per-record
failures are logged and skipped, and `has_more = (offset + limit) <
total_count`. -/
def assembleSearchResult (recordsData : List JValue) (totalCount limit offset : Int)
    (responseData : JValue) (fmt : String) : HarvardSearchResultE :=
  { records := recordsData.filterMap (fun rd => (parseHarvardRecord rd fmt).toOption),
    total_count := totalCount, limit := limit, offset := offset,
    has_more := decide (offset + limit < totalCount),
    raw_response := some responseData }

/-! ## get_record_by_id (`api/client.py`, lines 419-464) -/

/-- Outcome of the underlying HTTP request as seen by `get_record_by_id`:
a decoded 2xx body, a non-2xx status (on which `raise_for_status` raised
`httpx.HTTPStatusError`), or a network-level `httpx.RequestError`. -/
inductive HttpOutcome where
  | success (body : JValue)
  | statusError (code : Nat) (body : JValue)
  | requestError

/-- Errors `get_record_by_id` propagates to its caller. -/
inductive ClientError where
  | httpStatus (code : Nat)
  | network
  | parseFailure
deriving DecidableEq, Repr

/-- Endpoint selection of `get_record_by_id` (lines 434-438). -/
def recordEndpoint (recordId fmt : String) : String :=
  if fmt = "xml" then "items/" ++ recordId ++ ".xml" else "items/" ++ recordId ++ ".json"

open JValue in
/-- Single-record unwrapping of the response body (lines 449-453): descend
into `items.item`, taking the head of a non-empty list.  Python `in` on a
non-dict body may raise `TypeError` (subscripting a string or list with a
string key, or membership on a number). -/
def extractSingleRecordData (body : JValue) : Except Unit JValue :=
  match body with
  | .obj fs =>
    (match jGet fs "items" with
     | some (.obj ifs) =>
       (match jGet ifs "item" with
        | some (.arr (x :: _)) => .ok x
        | some (.arr []) => .ok (.arr [])
        | some v => .ok v
        | none => .ok body)
     | some (.str s) => if strContains s "item" then .error () else .ok body
     | some (.arr xs) =>
       if xs.any (fun v => match v with | .str t => t = "item" | _ => false) then .error ()
       else .ok body
     | some _ => .error ()
     | none => .ok body)
  | .str s => if strContains s "items" then .error () else .ok body
  | .arr xs =>
    if xs.any (fun v => match v with | .str t => t = "items" | _ => false) then .error ()
    else .ok body
  | _ => .error ()

/-- Embeds `get_record_by_id` as a function of the request outcome: a 2xx body is
unwrapped and parsed, a 404 becomes `None`, any other status error or
request error re-raises, and an exception on the success path propagates. -/
def getRecordById (outcome : HttpOutcome) (fmt : String) :
    Except ClientError (Option HarvardRecordE) :=
  match outcome with
  | .success body =>
    (match extractSingleRecordData body with
     | .error _ => .error .parseFailure
     | .ok rd =>
       match parseHarvardRecord rd fmt with
       | .ok r => .ok (some r)
       | .error _ => .error .parseFailure)
  | .statusError code _ => if code = 404 then .ok none else .error (.httpStatus code)
  | .requestError => .error .network

/-! ## Helper lemmas -/

theorem string_mk_data (s : String) : String.mk s.data = s := by
  cases s
  rfl

theorem string_append_mk (a b : List Char) :
    String.mk a ++ String.mk b = String.mk (a ++ b) := rfl

theorem except_bind_ok {α β : Type} {x : Except Unit α} {f : α → Except Unit β} {b : β}
    (h : x >>= f = Except.ok b) : ∃ a, x = Except.ok a ∧ f a = Except.ok b := by
  cases x with
  | ok a => exact ⟨a, rfl, h⟩
  | error e =>
    simp only [Bind.bind, Except.bind] at h
    exact Except.noConfusion h

/-! ## Claim theorems -/

/-- C2: the tool name `parse_permalink` is listed on the MCP tool surface,
routed by the dispatcher and imported by the server module, but no such
function is defined in `tools/search_tools.py` (importing the server module
therefore raises `ImportError`); every other enumerated tool name does
resolve to a defined function. -/
theorem parsePermalink_tool_unresolvable :
    "parse_permalink" ∈ listToolNames ∧
    "parse_permalink" ∈ handleCallToolRoutes ∧
    "parse_permalink" ∈ serverSearchToolImports ∧
    "parse_permalink" ∉ searchToolsDefinedFunctions ∧
    ∀ t ∈ listToolNames, t ≠ "parse_permalink" → t ∈ searchToolsDefinedFunctions := by
  decide

/-- C4: for `limit > 0`, the search result built by `search` satisfies
`has_more = (offset + limit < total_count)` with the supplied `limit` and
`offset` and the extracted `total_count` stored unchanged. -/
theorem searchResult_hasMore (recordsData : List JValue) (totalCount limit offset : Int)
    (responseData : JValue) (fmt : String) (h : 0 < limit) :
    (assembleSearchResult recordsData totalCount limit offset responseData fmt).has_more =
      decide (offset + limit < totalCount) ∧
    (assembleSearchResult recordsData totalCount limit offset responseData fmt).limit = limit ∧
    (assembleSearchResult recordsData totalCount limit offset responseData fmt).offset = offset ∧
    (assembleSearchResult recordsData totalCount limit offset responseData fmt).total_count =
      totalCount :=
  ⟨rfl, rfl, rfl, rfl⟩

/-- Witness for C4 at `limit = 5`, `offset = 10`, `total_count = 12`. -/
theorem searchResult_hasMore_witness :
    (0 : Int) < 5 ∧
    (assembleSearchResult [] 12 5 10 JValue.null "json").has_more =
      decide ((10 : Int) + 5 < 12) :=
  ⟨by norm_num, (searchResult_hasMore [] 12 5 10 JValue.null "json" (by norm_num)).1⟩

/-- C9: `get_record_by_id` turns an upstream 404 into an absent result, while
any other non-2xx status propagates as the corresponding status error and a
network-level failure propagates as a request error. -/
theorem getRecordById_notFound_spec (body : JValue) (code : Nat) (fmt : String)
    (hcode : code ≠ 404) :
    getRecordById (HttpOutcome.statusError 404 body) fmt = Except.ok none ∧
    getRecordById (HttpOutcome.statusError code body) fmt =
      Except.error (ClientError.httpStatus code) ∧
    getRecordById HttpOutcome.requestError fmt = Except.error ClientError.network := by
  refine ⟨rfl, ?_, rfl⟩
  simp [getRecordById, hcode]

/-- Witness for C9 at status 500. -/
theorem getRecordById_notFound_spec_witness :
    (500 : Nat) ≠ 404 ∧
    getRecordById (HttpOutcome.statusError 500 (JValue.obj [])) "json" =
      Except.error (ClientError.httpStatus 500) :=
  ⟨by decide, (getRecordById_notFound_spec (JValue.obj []) 500 "json" (by decide)).2.1⟩

/-- C1 counterexample: normalizing the empty map returns a record whose id is
the empty string — the fallback id chain `id`/`@id`/`recordId` defaults to
`""` and no synthesized id is substituted on the non-MODS branch. -/
theorem parseRecord_empty_map_id_empty :
    (parseHarvardRecord (JValue.obj []) "json").map HarvardRecordE.id = Except.ok "" := rfl

/-- C7 counterexample: parsing the specification sample document (which
declares no XML namespace) yields no title at all — `title_info` is `None`
and the simplified title of `parse_mods_metadata` is `None`, not
`"Test Book Title"` — because `from_xml` only matches
namespace-qualified MODS tags. -/
theorem modsParse_sample_title_counterexample :
    (modsFromXml sampleModsXmlTree sampleModsXmlText).title_info = none ∧
    parseModsSimplifiedTitle (modsFromXml sampleModsXmlTree sampleModsXmlText) = none ∧
    parseModsSimplifiedTitle (modsFromXml sampleModsXmlTree sampleModsXmlText) ≠
      some (JValue.str "Test Book Title") := by
  refine ⟨rfl, rfl, ?_⟩
  intro h
  rw [show parseModsSimplifiedTitle (modsFromXml sampleModsXmlTree sampleModsXmlText) =
    none from rfl] at h
  exact Option.noConfusion h

/-- C7 amended: parsing the sample document yields metadata whose title
fields are absent (`title_info` is `None` and the simplified title is
`None`), with the raw input preserved in `raw_xml`. -/
theorem modsParse_sample_amended :
    (modsFromXml sampleModsXmlTree sampleModsXmlText).title_info = none ∧
    parseModsSimplifiedTitle (modsFromXml sampleModsXmlTree sampleModsXmlText) = none ∧
    (modsFromXml sampleModsXmlTree sampleModsXmlText).raw_xml = some sampleModsXmlText :=
  ⟨rfl, rfl, rfl⟩

/-- C3 (code evaluation at the failing input): for a MODS record whose
identifier entry carries `99123456789`, normalization succeeds with that
identifier extracted, `_compute_permalink_candidate` (applied to exactly the
values the parser passes it) produces the Alma permalink — yet the record
model declares no `permalink` field, so `model_dump()` emits none and the
computed permalink is silently discarded by the constructor. -/
theorem permalink_computed_but_dropped :
    (parseHarvardRecord (JValue.obj [("mods", JValue.obj [("identifier",
        JValue.arr [JValue.obj [("@type", JValue.str "mms"),
          ("text", JValue.str "99123456789")]])])]) "json").map
      (fun r => r.modelDumpKeys.contains "permalink") = Except.ok false ∧
    (parseHarvardRecord (JValue.obj [("mods", JValue.obj [("identifier",
        JValue.arr [JValue.obj [("@type", JValue.str "mms"),
          ("text", JValue.str "99123456789")]])])]) "json").map
      (fun r => r.identifiers) = Except.ok [("MMS", "99123456789")] ∧
    computePermalinkCandidate
      (modsRecordId (JValue.obj [("identifier",
        JValue.arr [JValue.obj [("@type", JValue.str "mms"),
          ("text", JValue.str "99123456789")]])]))
      [("MMS", JValue.str "99123456789")]
      (some (fromModsDict (JValue.obj [("identifier",
        JValue.arr [JValue.obj [("@type", JValue.str "mms"),
          ("text", JValue.str "99123456789")]])])))
      (JValue.obj [("mods", JValue.obj [("identifier",
        JValue.arr [JValue.obj [("@type", JValue.str "mms"),
          ("text", JValue.str "99123456789")]])])]) =
      some "https://id.lib.harvard.edu/alma/99123456789/catalog" :=
  ⟨rfl, rfl, rfl⟩

/-- C10 counterexample: calling `search_by_title` with the empty string does
pass the value as both `query` and `title`, but Python truthiness then drops
both from the request parameters, so the upstream request carries the value
zero times, not twice. -/
theorem fieldSearch_empty_value_counterexample :
    (searchByTitleArgs "" 20 0).query = some "" ∧
    (searchByTitleArgs "" 20 0).title = some "" ∧
    (buildSearchParams (searchByTitleArgs "" 20 0)).map Prod.fst = ["limit", "start"] := by
  refine ⟨rfl, rfl, ?_⟩
  rfl

/-- C10 amended: each field-specific tool invokes the client with both the
general query and its field filter set to the supplied value, and for a
non-empty value the request parameters carry it twice — as `q` and as the
field-specific upstream parameter (`title`, `name`, `subject`, `setName`);
an empty value is dropped from the request by truthiness. -/
theorem fieldSearch_passes_value_twice (v : String) (limit offset : Int) :
    ((searchByTitleArgs v limit offset).query = some v ∧
     (searchByTitleArgs v limit offset).title = some v ∧
     (searchByAuthorArgs v limit offset).query = some v ∧
     (searchByAuthorArgs v limit offset).author = some v ∧
     (searchBySubjectArgs v limit offset).query = some v ∧
     (searchBySubjectArgs v limit offset).subject = some v ∧
     (searchByCollectionArgs v limit offset).query = some v ∧
     (searchByCollectionArgs v limit offset).collection = some v) ∧
    (v ≠ "" →
      ("q", ParamValue.str v) ∈ buildSearchParams (searchByTitleArgs v limit offset) ∧
      ("title", ParamValue.str v) ∈ buildSearchParams (searchByTitleArgs v limit offset) ∧
      ("q", ParamValue.str v) ∈ buildSearchParams (searchByAuthorArgs v limit offset) ∧
      ("name", ParamValue.str v) ∈ buildSearchParams (searchByAuthorArgs v limit offset) ∧
      ("q", ParamValue.str v) ∈ buildSearchParams (searchBySubjectArgs v limit offset) ∧
      ("subject", ParamValue.str v) ∈ buildSearchParams (searchBySubjectArgs v limit offset) ∧
      ("q", ParamValue.str v) ∈ buildSearchParams (searchByCollectionArgs v limit offset) ∧
      ("setName", ParamValue.str v) ∈
        buildSearchParams (searchByCollectionArgs v limit offset)) := by
  refine ⟨⟨rfl, rfl, rfl, rfl, rfl, rfl, rfl, rfl⟩, fun hv => ?_⟩
  refine ⟨?_, ?_, ?_, ?_, ?_, ?_, ?_, ?_⟩ <;>
    simp [buildSearchParams, searchByTitleArgs, searchByAuthorArgs, searchBySubjectArgs,
      searchByCollectionArgs, addParamIfTruthy, truthyOpt, hv]

/-- Witness for C10 at the value `Dickens`. -/
theorem fieldSearch_passes_value_twice_witness :
    "Dickens" ≠ "" ∧
    ("q", ParamValue.str "Dickens") ∈ buildSearchParams (searchByTitleArgs "Dickens" 20 0) ∧
    ("title", ParamValue.str "Dickens") ∈ buildSearchParams (searchByTitleArgs "Dickens" 20 0) :=
  ⟨by decide,
   ((fieldSearch_passes_value_twice "Dickens" 20 0).2 (by decide)).1,
   ((fieldSearch_passes_value_twice "Dickens" 20 0).2 (by decide)).2.1⟩

theorem acquire_same_time (r B tok t0 : ℚ) (htok : tok ≤ B) :
    (RateLimiter.mk r B tok t0).acquire t0 =
      (if tok < 1 then (AcquireOutcome.waited ((1 - tok) / r), ⟨r, B, 0, t0⟩)
       else (AcquireOutcome.immediate, ⟨r, B, tok - 1, t0⟩)) := by
  unfold RateLimiter.acquire
  simp [sub_self, min_eq_right htok]

theorem acquireN_state (B : ℕ) (r t0 : ℚ) :
    ∀ k, k ≤ B → RateLimiter.acquireN (RateLimiter.init r B t0) t0 k =
      ⟨r, (B : ℚ), (B : ℚ) - (k : ℚ), t0⟩ := by
  intro k
  induction k with
  | zero =>
    intro _
    simp [RateLimiter.acquireN, RateLimiter.init]
  | succ k ih =>
    intro hk
    have hk' : k ≤ B := Nat.le_of_succ_le hk
    have hkB : (k : ℚ) + 1 ≤ (B : ℚ) := by exact_mod_cast hk
    have hnonneg : (0 : ℚ) ≤ (k : ℚ) := by positivity
    rw [RateLimiter.acquireN, ih hk',
      acquire_same_time r (B : ℚ) ((B : ℚ) - (k : ℚ)) t0 (by linarith)]
    rw [if_neg (by push_neg; linarith)]
    have h1 : (B : ℚ) - (k : ℚ) - 1 = (B : ℚ) - ((k : ℕ) + 1 : ℕ) := by
      push_cast
      ring
    simp [h1]

/-- C5: from the full initial state of a limiter with burst size `B` and
rate `r > 0`, `B` consecutive `acquire()` calls with no elapsed time each
complete without suspension; the `(B+1)`-th suspends for the computed wait
`(1 - tokens) / r = 1 / r` seconds and then sets the token count to `0`. -/
theorem rateLimiter_burst_behavior (B : ℕ) (r t0 : ℚ) (hr : 0 < r) :
    (∀ k, k < B →
      ((RateLimiter.acquireN (RateLimiter.init r B t0) t0 k).acquire t0).1 =
        AcquireOutcome.immediate) ∧
    ((RateLimiter.acquireN (RateLimiter.init r B t0) t0 B).acquire t0).1 =
      AcquireOutcome.waited (1 / r) ∧
    ((RateLimiter.acquireN (RateLimiter.init r B t0) t0 B).acquire t0).2.tokens = 0 := by
  have hBB : (B : ℚ) - (B : ℚ) ≤ (B : ℚ) := by
    have : (0 : ℚ) ≤ (B : ℚ) := by positivity
    linarith
  have hlast :
      (RateLimiter.acquireN (RateLimiter.init r B t0) t0 B).acquire t0 =
        (AcquireOutcome.waited (1 / r), ⟨r, (B : ℚ), 0, t0⟩) := by
    rw [acquireN_state B r t0 B le_rfl, acquire_same_time r (B : ℚ) ((B : ℚ) - (B : ℚ)) t0 hBB,
      if_pos (by rw [sub_self]; norm_num)]
    rw [sub_self, sub_zero]
  refine ⟨fun k hk => ?_, ?_, ?_⟩
  · have hk' : k ≤ B := le_of_lt hk
    have hkB : (k : ℚ) + 1 ≤ (B : ℚ) := by exact_mod_cast hk
    have hnonneg : (0 : ℚ) ≤ (k : ℚ) := by positivity
    rw [acquireN_state B r t0 k hk',
      acquire_same_time r (B : ℚ) ((B : ℚ) - (k : ℚ)) t0 (by linarith),
      if_neg (by push_neg; linarith)]
  · rw [hlast]
  · rw [hlast]

/-- Witness for C5 at `B = 2`, `r = 5`, start time `0`: the first call is
immediate and the third waits `1/5` seconds with the tokens zeroed. -/
theorem rateLimiter_burst_behavior_witness :
    ((RateLimiter.acquireN (RateLimiter.init 5 ((2 : ℕ) : ℚ) 0) 0 0).acquire 0).1 =
      AcquireOutcome.immediate ∧
    ((RateLimiter.acquireN (RateLimiter.init 5 ((2 : ℕ) : ℚ) 0) 0 2).acquire 0).1 =
      AcquireOutcome.waited (1 / 5) ∧
    ((RateLimiter.acquireN (RateLimiter.init 5 ((2 : ℕ) : ℚ) 0) 0 2).acquire 0).2.tokens = 0 :=
  ⟨(rateLimiter_burst_behavior 2 5 0 (by norm_num)).1 0 (by norm_num),
   (rateLimiter_burst_behavior 2 5 0 (by norm_num)).2.1,
   (rateLimiter_burst_behavior 2 5 0 (by norm_num)).2.2⟩

theorem string_data_append (a b : String) : (a ++ b).data = a.data ++ b.data := by
  cases a
  cases b
  rfl

theorem mem_of_mem_dropWhile {α : Type} (p : α → Bool) (l : List α) (a : α)
    (h : a ∈ l.dropWhile p) : a ∈ l := by
  induction l with
  | nil => simp at h
  | cons c rest ih =>
    rw [List.dropWhile_cons] at h
    by_cases hc : p c = true
    · rw [if_pos hc] at h
      exact List.mem_cons_of_mem c (ih h)
    · rw [if_neg hc] at h
      exact h

theorem dropWhile_head_false {α : Type} (p : α → Bool) (l : List α) (c : α) (t : List α)
    (h : l.dropWhile p = c :: t) : p c = false := by
  induction l with
  | nil => simp at h
  | cons d rest ih =>
    rw [List.dropWhile_cons] at h
    by_cases hd : p d = true
    · rw [if_pos hd] at h
      exact ih h
    · rw [if_neg hd] at h
      injection h with h1 h2
      rw [← h1]
      exact Bool.eq_false_iff.mpr hd

theorem mem_of_getLast {α : Type} (l : List α) (a : α) (h : l.getLast? = some a) :
    a ∈ l := by
  induction l with
  | nil => simp at h
  | cons x rest ih =>
    cases rest with
    | nil =>
      simp [List.getLast?] at h
      subst h
      simp
    | cons y t =>
      rw [List.getLast?_cons_cons] at h
      exact List.mem_cons_of_mem x (ih h)

theorem lstrip_head_not_slash (s : String) :
    pyStartsWith (lstripSlashes s) "/" = false := by
  show List.isPrefixOf ['/'] (s.data.dropWhile (fun c => c = '/')) = false
  cases h : s.data.dropWhile (fun c => c = '/') with
  | nil => rfl
  | cons c t =>
    have hc : ¬(c = '/') := by simpa using dropWhile_head_false _ _ _ _ h
    simp only [List.isPrefixOf, Bool.and_eq_false_iff]
    left
    rw [beq_eq_false_iff_ne]
    exact fun hh => hc hh.symm

theorem lstrip_not_two_slashes (s : String) :
    pyStartsWith (lstripSlashes s) "//" = false := by
  show List.isPrefixOf ['/', '/'] (s.data.dropWhile (fun c => c = '/')) = false
  cases h : s.data.dropWhile (fun c => c = '/') with
  | nil => rfl
  | cons c t =>
    have hc : ¬(c = '/') := by simpa using dropWhile_head_false _ _ _ _ h
    simp only [List.isPrefixOf, Bool.and_eq_false_iff]
    left
    rw [beq_eq_false_iff_ne]
    exact fun hh => hc hh.symm

theorem noScheme_lstrip (s : String) (h : noScheme s = true) :
    noScheme (lstripSlashes s) = true := by
  rw [noScheme, List.all_eq_true] at h ⊢
  intro c hc
  exact h c (mem_of_mem_dropWhile _ _ _ hc)

theorem relScheme_of_noScheme (s : String) (h : noScheme s = true) :
    relScheme s = "" := by
  rw [noScheme, List.all_eq_true] at h
  unfold relScheme
  cases hd : s.data.dropWhile (fun c => !(c = ':' || c = '/')) with
  | nil => rfl
  | cons c t =>
    have hmem : c ∈ s.data :=
      mem_of_mem_dropWhile _ _ _ (hd ▸ List.mem_cons_self c t)
    have hc : ¬(c = ':') := by simpa using h c hmem
    simp [hc]

theorem ensureTrailingSlash_ne_empty (s : String) : ensureTrailingSlash s ≠ "" := by
  unfold ensureTrailingSlash
  by_cases h : endsWithChar s '/' = true
  · rw [if_pos h]
    intro he
    subst he
    simp [endsWithChar] at h
  · rw [if_neg h]
    intro he
    have h2 : String.mk (s.data ++ ['/']) = "" := by
      rw [← string_append_mk, string_mk_data]
      exact he
    have h3 := congrArg String.data h2
    simp at h3

theorem splitOnCharAux_sep_free (sep : Char) (l : List Char) :
    ∀ acc : List Char, (∀ c ∈ acc, c ≠ sep) →
      ∀ s ∈ splitOnCharAux sep l acc, ∀ c ∈ s.data, c ≠ sep := by
  induction l with
  | nil =>
    intro acc hacc s hs c hc
    simp [splitOnCharAux] at hs
    subst hs
    exact hacc c (List.mem_reverse.mp hc)
  | cons d rest ih =>
    intro acc hacc s hs c hc
    unfold splitOnCharAux at hs
    by_cases hd : d = sep
    · rw [if_pos hd] at hs
      rcases List.mem_cons.mp hs with h1 | h2
      · subst h1
        exact hacc c (List.mem_reverse.mp hc)
      · exact ih [] (by simp) s h2 c hc
    · rw [if_neg hd] at hs
      refine ih (d :: acc) ?_ s hs c hc
      intro x hx
      rcases List.mem_cons.mp hx with h1 | h2
      · subst h1
        exact hd
      · exact hacc x h2

theorem splitOnChar_slash_free (s : String) :
    ∀ seg ∈ splitOnChar '/' s, slashFree seg = true := by
  intro seg hseg
  rw [slashFree, List.all_eq_true]
  intro c hc
  have := splitOnCharAux_sep_free '/' s.data [] (by simp) seg hseg c hc
  simpa using this

theorem mem_splitOnChar_lstrip (s seg : String)
    (h : seg ∈ splitOnChar '/' (lstripSlashes s)) : seg ∈ splitOnChar '/' s := by
  have key : ∀ l : List Char,
      seg ∈ splitOnCharAux '/' (l.dropWhile (fun c => c = '/')) [] →
      seg ∈ splitOnCharAux '/' l [] := by
    intro l
    induction l with
    | nil => exact fun h => h
    | cons c rest ih =>
      intro hm
      rw [List.dropWhile_cons] at hm
      by_cases hc : c = '/'
      · rw [if_pos (by simp [hc])] at hm
        have : seg ∈ splitOnCharAux '/' rest [] := ih hm
        show seg ∈ splitOnCharAux '/' (c :: rest) []
        unfold splitOnCharAux
        rw [if_pos hc]
        exact List.mem_cons_of_mem _ this
      · rw [if_neg (by simp [hc])] at hm
        exact hm
  exact key s.data h

theorem filterMiddleAux_subset (l : List String) :
    ∀ x ∈ filterMiddleAux l, x ∈ l := by
  induction l with
  | nil => intro x hx; simp [filterMiddleAux] at hx
  | cons y rest ih =>
    cases rest with
    | nil => intro x hx; simpa [filterMiddleAux] using hx
    | cons z t =>
      intro x hx
      unfold filterMiddleAux at hx
      by_cases hy : y = ""
      · rw [if_pos hy] at hx
        exact List.mem_cons_of_mem y (ih x hx)
      · rw [if_neg hy] at hx
        rcases List.mem_cons.mp hx with h1 | h2
        · subst h1
          exact List.mem_cons_self x (z :: t)
        · exact List.mem_cons_of_mem y (ih x h2)

theorem filterMiddle_subset (l : List String) :
    ∀ x ∈ filterMiddle l, x ∈ l := by
  cases l with
  | nil => intro x hx; simp [filterMiddle] at hx
  | cons y rest =>
    intro x hx
    simp only [filterMiddle] at hx
    rcases List.mem_cons.mp hx with h1 | h2
    · subst h1
      exact List.mem_cons_self x rest
    · exact List.mem_cons_of_mem y (filterMiddleAux_subset rest x h2)

theorem filterMiddleAux_initNonempty (l : List String) :
    initNonempty (filterMiddleAux l) = true := by
  induction l with
  | nil => rfl
  | cons y rest ih =>
    cases rest with
    | nil => rfl
    | cons z t =>
      unfold filterMiddleAux
      by_cases hy : y = ""
      · rw [if_pos hy]
        exact ih
      · rw [if_neg hy]
        cases hfa : filterMiddleAux (z :: t) with
        | nil => rfl
        | cons w ws =>
          rw [hfa] at ih
          show ((y != "") && initNonempty (w :: ws)) = true
          rw [ih]
          simp [hy]

theorem middlesNonempty_cons (x : String) (l : List String) :
    middlesNonempty (x :: l) = initNonempty l := by
  induction l generalizing x with
  | nil => rfl
  | cons y t ih =>
    cases t with
    | nil => rfl
    | cons z r =>
      show ((y != "") && middlesNonempty (y :: z :: r)) =
        ((y != "") && initNonempty (z :: r))
      rw [ih y]

theorem middlesNonempty_filterMiddle (l : List String) :
    middlesNonempty (filterMiddle l) = true := by
  cases l with
  | nil => rfl
  | cons x rest =>
    show middlesNonempty (x :: filterMiddleAux rest) = true
    rw [middlesNonempty_cons]
    exact filterMiddleAux_initNonempty rest

theorem middlesNonempty_tail (x y : String) (xs : List String)
    (h : middlesNonempty (x :: y :: xs) = true) :
    middlesNonempty (y :: xs) = true := by
  cases xs with
  | nil => rfl
  | cons z zs =>
    have h2 : ((y != "") && middlesNonempty (y :: z :: zs)) = true := h
    rw [Bool.and_eq_true] at h2
    exact h2.2

theorem resolveDotsLoop_id (l : List String) :
    ∀ acc : List String, (∀ s ∈ l, s ≠ "." ∧ s ≠ "..") →
      resolveDotsLoop acc l = acc ++ l := by
  induction l with
  | nil => intro acc h; simp [resolveDotsLoop]
  | cons s rest ih =>
    intro acc h
    have hs := h s (List.mem_cons_self s rest)
    unfold resolveDotsLoop
    rw [if_neg hs.2, if_neg hs.1,
      ih (acc ++ [s]) (fun x hx => h x (List.mem_cons_of_mem s hx))]
    simp

theorem noTwoSlashes_of_no_slash (l : List Char) (h : ∀ c ∈ l, c ≠ '/') :
    noTwoSlashes l = true := by
  induction l with
  | nil => rfl
  | cons a rest ih =>
    cases rest with
    | nil => rfl
    | cons b t =>
      have hrec := ih (fun c hc => h c (List.mem_cons_of_mem a hc))
      have ha := h a (List.mem_cons_self a (b :: t))
      show (!(decide (a = '/') && decide (b = '/')) && noTwoSlashes (b :: t)) = true
      rw [hrec]
      simp [ha]

theorem noTwoSlashes_tail (a : Char) (l : List Char)
    (h : noTwoSlashes (a :: l) = true) : noTwoSlashes l = true := by
  cases l with
  | nil => rfl
  | cons b t =>
    have h2 : (!(decide (a = '/') && decide (b = '/')) && noTwoSlashes (b :: t)) = true := h
    rw [Bool.and_eq_true] at h2
    exact h2.2

theorem noTwoSlashes_append (b a : List Char) (hb : noTwoSlashes b = true)
    (ha : noTwoSlashes a = true)
    (hab : a.getLast? = some '/' → b.head? ≠ some '/') :
    noTwoSlashes (a ++ b) = true := by
  induction a with
  | nil => simpa using hb
  | cons c rest ih =>
    cases rest with
    | nil =>
      cases hbd : b with
      | nil => rfl
      | cons d t =>
        subst hbd
        show (!(decide (c = '/') && decide (d = '/')) && noTwoSlashes (d :: t)) = true
        rw [hb]
        by_cases hc : c = '/'
        · have hd : ¬(d = '/') := by
            have := hab (by simp [hc])
            simpa using this
          simp [hd]
        · simp [hc]
    | cons c2 rest2 =>
      have hsplit : (!(decide (c = '/') && decide (c2 = '/')) &&
          noTwoSlashes (c2 :: rest2)) = true := ha
      rw [Bool.and_eq_true] at hsplit
      obtain ⟨h1, h2⟩ := hsplit
      have hab2 : (c2 :: rest2).getLast? = some '/' → b.head? ≠ some '/' := by
        intro hl
        exact hab (by rw [List.getLast?_cons_cons]; exact hl)
      have hrec := ih h2 hab2
      show (!(decide (c = '/') && decide (c2 = '/')) &&
        noTwoSlashes (c2 :: (rest2 ++ b))) = true
      rw [h1]
      have : c2 :: (rest2 ++ b) = (c2 :: rest2) ++ b := rfl
      rw [this, hrec]
      rfl

theorem head_mem_of_append (ad bd : List Char) (c : Char) (t : List Char)
    (h : ad ++ bd = c :: t) (hne : ad ≠ []) : c ∈ ad := by
  cases ad with
  | nil => exact absurd rfl hne
  | cons a tl =>
    injection h with h1 h2
    subst h1
    simp

theorem slashFree_forall (s : String) (h : slashFree s = true) :
    ∀ c ∈ s.data, c ≠ '/' := by
  rw [slashFree, List.all_eq_true] at h
  intro c hc
  simpa using h c hc

theorem strIntercalate_noTwoSlashes (segs : List String) :
    (∀ s ∈ segs, slashFree s = true) → middlesNonempty segs = true →
    noTwoSlashes (strIntercalate "/" segs).data = true := by
  induction segs with
  | nil => intro _ _; rfl
  | cons x rest ih =>
    intro hfree hmid
    cases rest with
    | nil =>
      exact noTwoSlashes_of_no_slash _
        (slashFree_forall x (hfree x (List.mem_cons_self x [])))
    | cons y xs =>
      have hfree_tail : ∀ s ∈ y :: xs, slashFree s = true :=
        fun s hs => hfree s (List.mem_cons_of_mem x hs)
      have hj := ih hfree_tail (middlesNonempty_tail x y xs hmid)
      have hfx := slashFree_forall x (hfree x (List.mem_cons_self x (y :: xs)))
      have hb : noTwoSlashes ('/' :: (strIntercalate "/" (y :: xs)).data) = true := by
        cases hjd : (strIntercalate "/" (y :: xs)).data with
        | nil => rfl
        | cons e t =>
          have he : e ≠ '/' := by
            cases xs with
            | nil =>
              have hyd : y.data = e :: t := hjd
              exact slashFree_forall y (hfree y (by simp)) e (by simp [hyd])
            | cons z zs =>
              have hy_ne : y ≠ "" := by
                have h1 : ((y != "") && middlesNonempty (y :: z :: zs)) = true := hmid
                rw [Bool.and_eq_true] at h1
                simpa using h1.1
              have hjd2 : y.data ++ ("/".data ++
                  (strIntercalate "/" (z :: zs)).data) = e :: t := by
                have h0 : (y ++ "/" ++ strIntercalate "/" (z :: zs)).data = e :: t := hjd
                rw [string_data_append, string_data_append, List.append_assoc] at h0
                exact h0
              have hyd_ne : y.data ≠ [] := by
                intro hh
                exact hy_ne (by rw [← string_mk_data y, hh])
              exact slashFree_forall y (hfree y (by simp)) e
                (head_mem_of_append _ _ _ _ hjd2 hyd_ne)
          rw [hjd] at hj
          show (!(decide ('/' = '/') && decide (e = '/')) && noTwoSlashes (e :: t)) = true
          rw [hj]
          simp [he]
      have hax : noTwoSlashes x.data = true := noTwoSlashes_of_no_slash _ hfx
      have hbound : x.data.getLast? = some '/' → False := by
        intro hl
        exact hfx '/' (mem_of_getLast _ _ hl) rfl
      have happ := noTwoSlashes_append ('/' :: (strIntercalate "/" (y :: xs)).data)
        x.data hb hax (fun hl => absurd hl (fun hh => hbound hh))
      have hdata : (x ++ "/" ++ strIntercalate "/" (y :: xs)).data =
          x.data ++ ('/' :: (strIntercalate "/" (y :: xs)).data) := by
        rw [string_data_append, string_data_append, List.append_assoc]
        rfl
      show noTwoSlashes (x ++ "/" ++ strIntercalate "/" (y :: xs)).data = true
      rw [hdata]
      exact happ

theorem noDotSegments_forall (s : String) (h : noDotSegments s = true) :
    ∀ seg ∈ splitOnChar '/' s, seg ≠ "." ∧ seg ≠ ".." := by
  rw [noDotSegments, List.all_eq_true] at h
  intro seg hseg
  have := h seg hseg
  rw [Bool.and_eq_true] at this
  exact ⟨by simpa using this.1, by simpa using this.2⟩

theorem resolveSegments_noTwoSlashes (segs : List String)
    (hmem : ∀ s ∈ segs, s ≠ "." ∧ s ≠ "..")
    (hfree : ∀ s ∈ segs, slashFree s = true)
    (hmid : middlesNonempty segs = true) :
    noTwoSlashes (resolveSegments segs).data = true := by
  have hlast : ¬(segs.getLast? = some "." ∨ segs.getLast? = some "..") := by
    intro hl
    rcases hl with h1 | h2
    · exact (hmem "." (mem_of_getLast _ _ h1)).1 rfl
    · exact (hmem ".." (mem_of_getLast _ _ h2)).2 rfl
  have hc : (decide (segs.getLast? = some ".") ||
      decide (segs.getLast? = some "..")) = false := by
    simp only [Bool.or_eq_false_iff, decide_eq_false_iff_not]
    exact ⟨fun h => hlast (Or.inl h), fun h => hlast (Or.inr h)⟩
  have hres : resolveSegments segs =
      if strIntercalate "/" segs = "" then "/" else strIntercalate "/" segs := by
    simp only [resolveSegments, resolveDotsLoop_id segs [] hmem, List.nil_append, hc,
      Bool.false_eq_true, if_false]
  rw [hres]
  by_cases hjoin : strIntercalate "/" segs = ""
  · rw [if_pos hjoin]
    rfl
  · rw [if_neg hjoin]
    exact strIntercalate_noTwoSlashes segs hfree hmid

theorem mergeRelPath_noTwoSlashes (bpath rel : String)
    (hb : ∀ seg ∈ splitOnChar '/' bpath, seg ≠ "." ∧ seg ≠ "..")
    (hr : ∀ seg ∈ splitOnChar '/' rel, seg ≠ "." ∧ seg ≠ "..") :
    noTwoSlashes (mergeRelPath bpath rel).data = true := by
  show noTwoSlashes (resolveSegments (filterMiddle
      ((if (splitOnChar '/' bpath).getLast? = some "" then splitOnChar '/' bpath
        else (splitOnChar '/' bpath).dropLast) ++ splitOnChar '/' rel))).data = true
  have hbp_sub : ∀ s ∈ (if (splitOnChar '/' bpath).getLast? = some ""
      then splitOnChar '/' bpath else (splitOnChar '/' bpath).dropLast),
      s ∈ splitOnChar '/' bpath := by
    intro s hs
    by_cases hl : (splitOnChar '/' bpath).getLast? = some ""
    · rw [if_pos hl] at hs
      exact hs
    · rw [if_neg hl] at hs
      exact (List.dropLast_sublist (splitOnChar '/' bpath)).subset hs
  apply resolveSegments_noTwoSlashes
  · intro s hs
    rcases List.mem_append.mp (filterMiddle_subset _ s hs) with h1 | h2
    · exact hb s (hbp_sub s h1)
    · exact hr s h2
  · intro s hs
    rcases List.mem_append.mp (filterMiddle_subset _ s hs) with h1 | h2
    · exact splitOnChar_slash_free bpath s (hbp_sub s h1)
    · exact splitOnChar_slash_free rel s h2
  · exact middlesNonempty_filterMiddle _

/-- C6 (corrected): on the faithful domain (a well-formed slash-ensured base
whose scheme `urljoin` treats as relative, no query, fragment, semicolon or
dot segments on either side, and a nonempty stripped endpoint), `_build_url`
with no parameters returns the base scheme and authority followed by the
`urljoin` merge of the endpoint onto the base path, and that merged path
never contains two consecutive slashes — `urljoin` collapses redundant empty
interior segments, so extra slashes at the base/endpoint boundary (even a
base ending `//`) still yield exactly one separating slash.  Concretely, all
four slash variants of the default base and endpoint give
`https://api.lib.harvard.edu/v2/items`, and the example call yields
`https://api.lib.harvard.edu/v2/items?q=a+b&limit=5`, whose query string
encodes the space as `+` (urlencode form-encoding, not a `%20`
percent-escape) and contains `q=` and `limit=5` with no raw space. -/
theorem buildUrl_urljoin_amended :
    (∀ base endpoint : String,
      baseWellFormed (ensureTrailingSlash base) = true →
      usesRelative.contains (urlSplit3 (ensureTrailingSlash base)).1 = true →
      noQueryFragment base = true → noSemicolon base = true →
      noDotSegments (urlSplit3 (ensureTrailingSlash base)).2.2 = true →
      noQueryFragment endpoint = true → noSemicolon endpoint = true →
      noScheme endpoint = true → noDotSegments endpoint = true →
      lstripSlashes endpoint ≠ "" →
      buildUrl base endpoint [] =
        unsplitUrl (urlSplit3 (ensureTrailingSlash base)).1
          (urlSplit3 (ensureTrailingSlash base)).2.1
          (mergeRelPath (urlSplit3 (ensureTrailingSlash base)).2.2
            (lstripSlashes endpoint)) ∧
      noTwoSlashes (mergeRelPath (urlSplit3 (ensureTrailingSlash base)).2.2
          (lstripSlashes endpoint)).data = true) ∧
    (buildUrl "https://api.lib.harvard.edu/v2" "items" [] =
        "https://api.lib.harvard.edu/v2/items" ∧
     buildUrl "https://api.lib.harvard.edu/v2/" "items" [] =
        "https://api.lib.harvard.edu/v2/items" ∧
     buildUrl "https://api.lib.harvard.edu/v2" "/items" [] =
        "https://api.lib.harvard.edu/v2/items" ∧
     buildUrl "https://api.example.org/v2//" "items" [] =
        "https://api.example.org/v2/items") ∧
    (buildUrl harvard_api_base_url "items"
        [("q", some (ParamValue.str "a b")), ("limit", some (ParamValue.num 5))] =
      "https://api.lib.harvard.edu/v2/items?q=a+b&limit=5" ∧
     strContains (buildUrl harvard_api_base_url "items"
        [("q", some (ParamValue.str "a b")), ("limit", some (ParamValue.num 5))]) "q=" = true ∧
     strContains (buildUrl harvard_api_base_url "items"
        [("q", some (ParamValue.str "a b")), ("limit", some (ParamValue.num 5))])
        "limit=5" = true ∧
     strContains (buildUrl harvard_api_base_url "items"
        [("q", some (ParamValue.str "a b")), ("limit", some (ParamValue.num 5))]) " " = false) := by
  refine ⟨?_, ⟨rfl, rfl, rfl, rfl⟩, ⟨rfl, rfl, rfl, rfl⟩⟩
  intro base endpoint hwf hsch hqf hsc hbd hqe hsce hns hed hne
  have hb' : ¬(ensureTrailingSlash base = "") := ensureTrailingSlash_ne_empty base
  have hcs := lstrip_head_not_slash endpoint
  have hcs2 := lstrip_not_two_slashes endpoint
  have hrs : relScheme (lstripSlashes endpoint) = "" :=
    relScheme_of_noScheme _ (noScheme_lstrip endpoint hns)
  constructor
  · show pyUrljoin (ensureTrailingSlash base) (lstripSlashes endpoint) = _
    rw [pyUrljoin]
    simp only [hrs, hsch, hcs, hcs2, if_neg hb', if_neg hne, ite_true, ite_false,
      bne_self_eq_false, Bool.not_true, Bool.false_or, Bool.or_self,
      Bool.false_eq_true, if_false]
  · exact mergeRelPath_noTwoSlashes _ _
      (noDotSegments_forall _ hbd)
      (fun seg hseg => noDotSegments_forall endpoint hed seg
        (mem_splitOnChar_lstrip endpoint seg hseg))

/-- Witness for C6 at the configured base URL and the `items` endpoint. -/
theorem buildUrl_urljoin_amended_witness :
    (buildUrl "https://api.lib.harvard.edu/v2" "items" [] =
      unsplitUrl (urlSplit3 (ensureTrailingSlash "https://api.lib.harvard.edu/v2")).1
        (urlSplit3 (ensureTrailingSlash "https://api.lib.harvard.edu/v2")).2.1
        (mergeRelPath
          (urlSplit3 (ensureTrailingSlash "https://api.lib.harvard.edu/v2")).2.2
          (lstripSlashes "items"))) ∧
    noTwoSlashes (mergeRelPath
        (urlSplit3 (ensureTrailingSlash "https://api.lib.harvard.edu/v2")).2.2
        (lstripSlashes "items")).data = true :=
  buildUrl_urljoin_amended.1 "https://api.lib.harvard.edu/v2" "items"
    (by decide) (by decide) (by decide) (by decide) (by decide)
    (by decide) (by decide) (by decide) (by decide) (by decide)

/-- C6 counterexample: the example URL does not percent-encode the space
(`%20` is absent; urlencode emits `q=a+b`), and for a base URL whose scheme
is outside `urllib.parse.uses_relative` (here `foo://x`) `urljoin` discards
the base entirely, so no slash separates base and path at all. -/
theorem buildUrl_space_scheme_counterexample :
    strContains (buildUrl harvard_api_base_url "items"
      [("q", some (ParamValue.str "a b")), ("limit", some (ParamValue.num 5))]) "%20" = false ∧
    strContains (buildUrl harvard_api_base_url "items"
      [("q", some (ParamValue.str "a b")), ("limit", some (ParamValue.num 5))]) "q=a+b" = true ∧
    buildUrl "foo://x" "items" [] = "items" :=
  ⟨rfl, rfl, rfl⟩

theorem idsSearch_of_any (ids : List (String × String))
    (h : (ids.any fun kv => (search99 kv.2).isSome) = true) :
    ∃ mms, idsSearch (ids.map fun kv => (kv.1, JValue.str kv.2)) = some mms := by
  induction ids with
  | nil => simp at h
  | cons kv rest ih =>
    obtain ⟨k, v⟩ := kv
    simp only [List.any_cons, Bool.or_eq_true] at h
    by_cases hv : v = ""
    · subst hv
      have h2 : (rest.any fun kv => (search99 kv.2).isSome) = true := by
        rcases h with h | h
        · rw [show search99 "" = none from rfl] at h
          simp at h
        · exact h
      obtain ⟨m, hm⟩ := ih h2
      exact ⟨m, by simpa [idsSearch, JValue.pyTruthy] using hm⟩
    · cases hs : search99 v with
      | some m =>
        exact ⟨m, by simp [idsSearch, JValue.pyTruthy, JValue.pyStr, hv, hs]⟩
      | none =>
        have h2 : (rest.any fun kv => (search99 kv.2).isSome) = true := by
          rcases h with h | h
          · rw [hs] at h
            simp at h
          · exact h
        obtain ⟨m, hm⟩ := ih h2
        exact ⟨m, by simp [idsSearch, JValue.pyTruthy, JValue.pyStr, hv, hs, hm]⟩

theorem idsSearch_none (ids : List (String × String))
    (h : ∀ kv ∈ ids, search99 kv.2 = none) :
    idsSearch (ids.map fun kv => (kv.1, JValue.str kv.2)) = none := by
  induction ids with
  | nil => rfl
  | cons kv rest ih =>
    obtain ⟨k, v⟩ := kv
    have hv := h (k, v) (by simp)
    have hrest : ∀ kv ∈ rest, search99 kv.2 = none := fun kv hkv => h kv (by simp [hkv])
    by_cases he : v = ""
    · subst he
      simp [idsSearch, JValue.pyTruthy, ih hrest]
    · simp [idsSearch, JValue.pyTruthy, JValue.pyStr, he, hv, ih hrest]

theorem candLoop_no_match (cs : List JValue)
    (h : ∀ c ∈ cs, ∀ s, candChainVal c = JValue.str s → search99 s = none) :
    candLoop cs = Except.ok none ∨ candLoop cs = Except.error () := by
  induction cs with
  | nil => left; rfl
  | cons c rest ih =>
    have hrest : ∀ c2 ∈ rest, ∀ s, candChainVal c2 = JValue.str s → search99 s = none :=
      fun c2 hc2 => h c2 (List.mem_cons_of_mem _ hc2)
    cases hcv : candChainVal c with
    | str s =>
      have hs := h c (List.mem_cons_self _ _) s hcv
      rcases ih hrest with h1 | h1
      · left
        simp [candLoop, hcv, hs, h1]
      · right
        simp [candLoop, hcv, hs, h1]
    | null => right; simp [candLoop, hcv]
    | bool b => right; simp [candLoop, hcv]
    | num n => right; simp [candLoop, hcv]
    | arr xs => right; simp [candLoop, hcv]
    | obj fs => right; simp [candLoop, hcv]

/-- C8: if some identifier value contains a `99`-plus-eight-digits match,
`_compute_permalink_candidate` returns the Alma permalink built from the
first such match; if no match occurs in the identifiers, the MODS
record-identifier candidates, the record id, or the serialized record
data, it returns `None`. -/
theorem computePermalink_spec (rid : JValue) (ids : List (String × String))
    (meta : Option ModsMetadataE) (rdata : JValue) :
    ((ids.any fun kv => (search99 kv.2).isSome) = true →
      ∃ mms, idsSearch (ids.map fun kv => (kv.1, JValue.str kv.2)) = some mms ∧
        computePermalinkCandidate rid (ids.map fun kv => (kv.1, JValue.str kv.2)) meta rdata =
          some (almaPermalink mms)) ∧
    ((∀ kv ∈ ids, search99 kv.2 = none) →
     (∀ c ∈ recordInfoCands meta, ∀ s, candChainVal c = JValue.str s → search99 s = none) →
     search99 rid.pyStr = none → search99 rdata.pyStr = none →
      computePermalinkCandidate rid (ids.map fun kv => (kv.1, JValue.str kv.2)) meta rdata =
        none) := by
  constructor
  · intro h
    obtain ⟨m, hm⟩ := idsSearch_of_any ids h
    exact ⟨m, hm, by simp [computePermalinkCandidate, hm]⟩
  · intro h1 h2 h3 h4
    have hids := idsSearch_none ids h1
    have hstep2 := candLoop_no_match (recordInfoCands meta) h2
    unfold computePermalinkCandidate
    rw [hids]
    simp only [step2RecordInfo]
    rcases hstep2 with h5 | h5
    · rw [h5]
      by_cases hrid : rid.pyTruthy <;> by_cases hrd : rdata.pyTruthy <;>
        simp [hrid, hrd, h3, h4]
    · rw [h5]

/-- Witness for C8: a `99123456789` identifier yields its Alma permalink; a
matchless input yields `None`. -/
theorem computePermalink_spec_witness :
    computePermalinkCandidate (JValue.str "rec")
      ([("MMS", "99123456789")].map fun kv => (kv.1, JValue.str kv.2)) none (JValue.obj []) =
      some (almaPermalink "99123456789") ∧
    computePermalinkCandidate (JValue.str "rec")
      ([("A", "abc")].map fun kv => (kv.1, JValue.str kv.2)) none
      (JValue.obj [("k", JValue.str "v")]) = none := by
  constructor
  · obtain ⟨mms, h1, h2⟩ :=
      (computePermalink_spec (JValue.str "rec") [("MMS", "99123456789")] none
        (JValue.obj [])).1 (by decide)
    have h3 : some "99123456789" = some mms := by
      rw [← h1]
      rfl
    cases h3
    exact h2
  · refine (computePermalink_spec (JValue.str "rec") [("A", "abc")] none
      (JValue.obj [("k", JValue.str "v")])).2 (by decide) ?_ rfl rfl
    intro c hc
    simp [recordInfoCands] at hc

theorem asStr_truthy_ne (v : JValue) (s : String) (hv : v.pyTruthy = true)
    (h : asStr v = Except.ok s) : s ≠ "" := by
  cases v with
  | str t =>
    simp only [asStr, Except.ok.injEq] at h
    subst h
    simpa [JValue.pyTruthy] using hv
  | null => simp [asStr] at h
  | bool b => simp [asStr] at h
  | num n => simp [asStr] at h
  | arr xs => simp [asStr] at h
  | obj fsx => simp [asStr] at h

theorem harvard_prefix_ne (x : String) : ("harvard-" ++ x) ≠ "" := by
  intro h
  have hlen := congrArg String.length h
  rw [String.length_append] at hlen
  have h8 : ("harvard-" : String).length = 8 := rfl
  have h0 : ("" : String).length = 0 := rfl
  rw [h8, h0] at hlen
  omega

theorem modsRecordId_ok_ne (md : JValue) (s : String)
    (h : asStr (modsRecordId md) = Except.ok s) : s ≠ "" := by
  simp only [modsRecordId] at h
  split_ifs at h with h1 h2 h3
  · exact asStr_truthy_ne _ s h1 h
  · exact asStr_truthy_ne _ s h2 h
  · exact asStr_truthy_ne _ s h3 h
  · simp only [asStr, Except.ok.injEq] at h
    subst h
    exact harvard_prefix_ne _

theorem modsPath_id (md d : JValue) (fmt : String) (r : HarvardRecordE)
    (h : modsPath md d fmt = Except.ok r) : asStr (modsRecordId md) = Except.ok r.id := by
  simp only [modsPath] at h
  obtain ⟨recordId, hid, h⟩ := except_bind_ok h
  obtain ⟨title, _, h⟩ := except_bind_ok h
  obtain ⟨nameItems, _, h⟩ := except_bind_ok h
  obtain ⟨authors, _, h⟩ := except_bind_ok h
  obtain ⟨pubDate, _, h⟩ := except_bind_ok h
  obtain ⟨publisher, _, h⟩ := except_bind_ok h
  obtain ⟨language, _, h⟩ := except_bind_ok h
  obtain ⟨subjectItems, _, h⟩ := except_bind_ok h
  obtain ⟨subjects, _, h⟩ := except_bind_ok h
  obtain ⟨description, _, h⟩ := except_bind_ok h
  obtain ⟨idItems, _, h⟩ := except_bind_ok h
  obtain ⟨identifiersJ, _, h⟩ := except_bind_ok h
  obtain ⟨identifiers, _, h⟩ := except_bind_ok h
  obtain ⟨formatT, _, h⟩ := except_bind_ok h
  simp only [pure, Except.pure, Except.ok.injEq] at h
  subst h
  exact hid

/-- C1 amended: normalization of any input map returns a record without
raising (`identifiers` being a total `Dict[str, str]` field of the model);
for a MODS-shaped input whose extraction completes without an internal
exception the record id is non-empty (a synthesized `harvard-` id standing
in when no candidate is found); and an internal exception yields exactly
the minimal fallback record carrying the best-effort id and the raw
payload.  (As stated the original claim fails: on the non-MODS branch the
id chain can produce the empty string.) -/
theorem parseRecord_total_amended (fs : List (String × JValue)) (fmt : String) :
    (∃ r, parseHarvardRecord (JValue.obj fs) fmt = Except.ok r) ∧
    (∀ md r, modsDataOf fs = some md →
      parseRecordCore (JValue.obj fs) fmt = Except.ok r → r.id ≠ "") ∧
    (parseRecordCore (JValue.obj fs) fmt = Except.error () →
      parseHarvardRecord (JValue.obj fs) fmt = Except.ok (minimalRecord fs)) := by
  refine ⟨?_, ?_, ?_⟩
  · cases h : parseRecordCore (JValue.obj fs) fmt with
    | ok r => exact ⟨r, by simp [parseHarvardRecord, h]⟩
    | error e => exact ⟨minimalRecord fs, by simp [parseHarvardRecord, h]⟩
  · intro md r hmd hok
    have hcore : parseRecordCore (JValue.obj fs) fmt = modsPath md (JValue.obj fs) fmt := by
      simp [parseRecordCore, hmd]
    rw [hcore] at hok
    exact modsRecordId_ok_ne md r.id (modsPath_id md (JValue.obj fs) fmt r hok)
  · intro h
    simp [parseHarvardRecord, h]

/-- Witness for C1 amended: a MODS payload whose `name` entry is the
non-iterable `0` raises a `TypeError` inside extraction, and the parser
falls back to exactly the minimal record. -/
theorem parseRecord_total_amended_witness :
    parseRecordCore (JValue.obj [("mods", JValue.obj [("name", JValue.num 0)])]) "json" =
      Except.error () ∧
    parseHarvardRecord (JValue.obj [("mods", JValue.obj [("name", JValue.num 0)])]) "json" =
      Except.ok (minimalRecord [("mods", JValue.obj [("name", JValue.num 0)])]) :=
  ⟨rfl,
   (parseRecord_total_amended [("mods", JValue.obj [("name", JValue.num 0)])] "json").2.2 rfl⟩

/-- Witness for C2: a name other than `parse_permalink`, here
`search_catalog`, does resolve to a defined tool function. -/
theorem parsePermalink_tool_unresolvable_witness :
    "search_catalog" ∈ searchToolsDefinedFunctions :=
  parsePermalink_tool_unresolvable.2.2.2.2 "search_catalog" (by decide) (by decide)
